import Mathlib

/-!
# Artifact references and artifact schema conversion (tektoncd/pipeline, v1beta1)

A shallow embedding of

* `pkg/apis/pipeline/v1beta1/artifactref.go`: the classifier `looksLikeArtifactRef`, the
  parser `parseArtifactExpression`, `ParseArtifactName`, `NewArtifactRefs` and
  `LooksLikeContainsArtifactRefs`;
* `pkg/apis/pipeline/v1beta1/artifact_conversion.go`: the `convertTo` / `convertFrom` methods
  of `Artifacts` and `Artifact`;
* the extraction functions and `PipelineTaskArtifactRefs` of artifactref.go, with the scanner
  and the extractors of parameters and when-expressions as parameters;
* `pkg/apis/config/artifacts.go`: `NewArtifactConfigFromMap` and `setArtifactConfig`, with
  the JSON decoder as a parameter.

Go strings are modelled as lists of characters (`Str`).  Go's `int` is the 64-bit signed
integer; the only place where its width matters is `strconv.Atoi`, which clamps.
-/

namespace Chains

/-- A Go string, as the sequence of its characters. -/
abbrev Str := List Char

/-! ## Library functions used by the source -/

/-- Go `strings.Split(s, sep)` for a one-character separator: the pieces of `s` between the
occurrences of `sep`; always at least one piece (`strings.Split("", ".")` is `[""]`). -/
def stringsSplit (sep : Char) : Str → List Str
  | [] => [[]]
  | c :: cs =>
    if c = sep then [] :: stringsSplit sep cs
    else
      match stringsSplit sep cs with
      | [] => [[c]]
      | seg :: rest => (c :: seg) :: rest

/-- Go `strings.TrimPrefix(s, prefix)`. -/
def stringsTrimPrefix (s pre : Str) : Str :=
  if pre.isPrefixOf s then s.drop pre.length else s

/-- Go `strings.TrimSuffix(s, suffix)`. -/
def stringsTrimSuffix (s suf : Str) : Str :=
  if suf.isSuffixOf s then s.take (s.length - suf.length) else s

/-- The value of a string of decimal digits, most significant digit first. -/
def decimalValue (s : Str) : Nat :=
  s.foldl (fun n c => n * 10 + (c.toNat - '0'.toNat)) 0

/-- Width of Go's `int` (`strconv.IntSize`) on the 64-bit platforms the program is built for. -/
def intSize : Nat := 64

/-- Go `strconv.Atoi(s)`: the value and whether an error is returned.  An optional sign, then
decimal digits; a syntax error gives `0`, a value outside the range of `int` gives the nearest
bound of the range (together with a range error). -/
def strconvAtoi (s : Str) : Int × Bool :=
  let neg := s.head? = some '-'
  let body := if s.head? = some '-' ∨ s.head? = some '+' then s.drop 1 else s
  if body = [] ∨ ¬ body.all Char.isDigit then (0, true)
  else
    let un := decimalValue body
    let cutoff := 2 ^ (intSize - 1)
    if ¬ neg ∧ un ≥ cutoff then ((cutoff : Int) - 1, true)
    else if neg ∧ un > cutoff then (-(cutoff : Int), true)
    else (if neg then -(un : Int) else (un : Int), false)

/-! ## The array-indexing pattern -/

/-- A non-empty string of decimal digits. -/
def isDecimal (t : Str) : Bool :=
  t != [] && t.all Char.isDigit

/-- A bracket token: a decimal integer or the literal `*`. -/
def isIndexToken (t : Str) : Bool :=
  isDecimal t || t == ['*']

/-- Modelled from the spec: the package-level `arrayIndexingRegex` is declared outside
artifactref.go.  The spec says what it matches: a trailing `[<token>]` suffix, where
`<token>` is either a decimal integer or the literal `*`.  `arrayIndexingMatchLen s` is the
length of the match of the pattern at the very start of `s`, if there is one: `s` is then
`[`, a token and `]`, and nothing follows. -/
def arrayIndexingMatchLen : Str → Option Nat
  | '[' :: rest =>
    if rest.getLast? = some ']' ∧ isIndexToken rest.dropLast = true then
      some (rest.length + 1)
    else none
  | _ => none

/-- Go `arrayIndexingRegex.FindString(s)`: the text of the leftmost match, `""` if none. -/
def arrayIndexingFindString : Str → Str
  | [] => []
  | c :: cs =>
    match arrayIndexingMatchLen (c :: cs) with
    | some n => (c :: cs).take n
    | none => arrayIndexingFindString cs

/-- Scanner of `ReplaceAllString(s, "")`: `skip` characters of a match are still to be
dropped. -/
def arrayIndexingRemoveAux : Nat → Str → Str
  | _, [] => []
  | skip + 1, _ :: cs => arrayIndexingRemoveAux skip cs
  | 0, c :: cs =>
    match arrayIndexingMatchLen (c :: cs) with
    | some n => arrayIndexingRemoveAux (n - 1) cs
    | none => c :: arrayIndexingRemoveAux 0 cs

/-- Go `arrayIndexingRegex.ReplaceAllString(s, "")`: every non-overlapping match, found left
to right, is removed. -/
def arrayIndexingReplaceAllEmpty (s : Str) : Str :=
  arrayIndexingRemoveAux 0 s

/-! ## artifactref.go -/

/-- Type `ArtifactRef` of artifactref.go. -/
structure ArtifactRef where
  PipelineTask : Str
  Artifact : Str
  ArtifactsIndex : Int
  Property : Str
  deriving DecidableEq, Repr

/-- Constant `ArtifactTaskPart`. -/
def ArtifactTaskPart : Str := "tasks".toList

/-- Constant `ArtifactFinallyPart`. -/
def ArtifactFinallyPart : Str := "finally".toList

/-- Constant `ArtifactArtifactPart`. -/
def ArtifactArtifactPart : Str := "artifacts".toList

/-- The two package constants named in the error of `parseArtifactExpression`; they are
declared outside `artifactref.go` and are taken as parameters. -/
structure ResultFormats where
  resultExpressionFormat : Str
  objectResultExpressionFormat : Str
  deriving DecidableEq, Repr

/-- A Go error built by `fmt.Errorf(format, args...)`, kept as the call that built it. -/
structure FmtError where
  format : Str
  args : List Str
  deriving DecidableEq, Repr

/-- Function `looksLikeArtifactRef` of artifactref.go. -/
def looksLikeArtifactRef (expression : Str) : Bool :=
  let subExpressions := stringsSplit '.' expression
  decide (subExpressions.length ≥ 4)
    && (subExpressions.getD 0 [] == ArtifactTaskPart
        || subExpressions.getD 0 [] == ArtifactFinallyPart)
    && subExpressions.getD 2 [] == ArtifactArtifactPart

/-- Function `ParseArtifactName` of artifactref.go. -/
def ParseArtifactName (artifactName : Str) : Str × Str :=
  let stringIdx :=
    stringsTrimSuffix (stringsTrimPrefix (arrayIndexingFindString artifactName) ['[']) [']']
  let artifactName := arrayIndexingReplaceAllEmpty artifactName
  (artifactName, stringIdx)

/-- The error every failing path of `parseArtifactExpression` returns. -/
def parseError (K : ResultFormats) : FmtError :=
  { format := "must be one of the form 1). %q; 2). %q".toList
    args := [K.resultExpressionFormat, K.objectResultExpressionFormat] }

/-- Function `parseArtifactExpression` of artifactref.go: the four results and the error (`none` for
Go's `nil`). -/
def parseArtifactExpression (K : ResultFormats) (substitutionExpression : Str) :
    Str × Str × Int × Str × Option FmtError :=
  if looksLikeArtifactRef substitutionExpression then
    let subExpressions := stringsSplit '.' substitutionExpression
    if subExpressions.length = 5 then
      let r := ParseArtifactName (subExpressions.getD 4 [])
      if r.2 ≠ [] then
        (subExpressions.getD 1 [], r.1, (strconvAtoi r.2).1, [], none)
      else
        (subExpressions.getD 1 [], r.1, 0, [], none)
    else if subExpressions.length = 6 then
      (subExpressions.getD 1 [], subExpressions.getD 4 [], 0, subExpressions.getD 5 [], none)
    else ([], [], 0, [], some (parseError K))
  else ([], [], 0, [], some (parseError K))

/-- One iteration of the loop of `NewArtifactRefs`. -/
def NewArtifactRefs.step (K : ResultFormats) (artifactRefs : List ArtifactRef)
    (expression : Str) : List ArtifactRef :=
  match parseArtifactExpression K expression with
  | (pipelineTask, artifact, index, property, none) =>
    artifactRefs ++ [{ PipelineTask := pipelineTask, Artifact := artifact,
                       ArtifactsIndex := index, Property := property }]
  | (_, _, _, _, some _) => artifactRefs

/-- Function `NewArtifactRefs` of artifactref.go. -/
def NewArtifactRefs (K : ResultFormats) (expressions : List Str) : List ArtifactRef :=
  expressions.foldl (NewArtifactRefs.step K) []

/-- Function `LooksLikeContainsArtifactRefs` of artifactref.go. -/
def LooksLikeContainsArtifactRefs : List Str → Bool
  | [] => false
  | expression :: rest =>
    if looksLikeArtifactRef expression then true else LooksLikeContainsArtifactRefs rest

/-! ## artifact_types.go (v1) and the v1beta1 mirror of it -/

namespace v1

/-- Type `v1.Artifact` of artifact_types.go; the types of `ParamValue` and `TaskRef` are declared
elsewhere and are parameters.  The field `Type` is written `Type_`. -/
structure Artifact (PV TR : Type) where
  Name : Str
  Description : Str
  Value : PV
  TaskRef : Option TR
  Type_ : Str

/-- Type `v1.Artifacts` of artifact_types.go. -/
structure Artifacts (PV TR : Type) where
  Inputs : List (Artifact PV TR)
  Outputs : List (Artifact PV TR)

end v1

namespace v1beta1

/-- The legacy `Artifact`: the fields artifact_conversion.go reads and writes. -/
structure Artifact (PV TR : Type) where
  Name : Str
  Description : Str
  Value : PV
  TaskRef : Option TR
  Type_ : Str

/-- The legacy `Artifacts`. -/
structure Artifacts (PV TR : Type) where
  Inputs : List (Artifact PV TR)
  Outputs : List (Artifact PV TR)

end v1beta1

/-- The external collaborators of artifact_conversion.go: the zero values of the two
`ParamValue` and the two `TaskRef` types, and their converters.  A converter takes the
value it reads and the value it overwrites, and gives the overwritten value afterwards
(`valueConvertTo v sink` is `v.convertTo(ctx, &sink)`, `valueConvertFrom recv src` is
`recv.convertFrom(ctx, src)`); the context is fixed. -/
structure Converters (PVb TRb PV1 TR1 : Type) where
  zeroValue : PVb
  zeroValueV1 : PV1
  zeroTaskRef : TRb
  zeroTaskRefV1 : TR1
  valueConvertTo : PVb → PV1 → PV1
  valueConvertFrom : PVb → PV1 → PVb
  taskRefConvertTo : TRb → TR1 → TR1
  taskRefConvertFrom : TRb → TR1 → TRb

section Conversion

variable {PVb TRb PV1 TR1 : Type}

/-- Go's `v1.Artifact{}`. -/
def v1.Artifact.zero (C : Converters PVb TRb PV1 TR1) : v1.Artifact PV1 TR1 :=
  { Name := [], Description := [], Value := C.zeroValueV1, TaskRef := none, Type_ := [] }

/-- Go's `Artifact{}` (v1beta1). -/
def v1beta1.Artifact.zero (C : Converters PVb TRb PV1 TR1) : v1beta1.Artifact PVb TRb :=
  { Name := [], Description := [], Value := C.zeroValue, TaskRef := none, Type_ := [] }

/-- Method `func (a Artifact) convertTo(ctx, sink *v1.Artifact)`: the sink afterwards. -/
def v1beta1.Artifact.convertTo (C : Converters PVb TRb PV1 TR1)
    (a : v1beta1.Artifact PVb TRb) (sink : v1.Artifact PV1 TR1) : v1.Artifact PV1 TR1 :=
  let sink := { sink with Name := a.Name }
  let sink := { sink with Type_ := a.Type_ }
  let sink := { sink with Description := a.Description }
  let newValue := C.valueConvertTo a.Value C.zeroValueV1
  let sink := { sink with Value := newValue }
  match a.TaskRef with
  | some taskRef => { sink with TaskRef := some (C.taskRefConvertTo taskRef C.zeroTaskRefV1) }
  | none => sink

/-- Method `func (a *Artifact) convertFrom(ctx, source v1.Artifact)`: the receiver afterwards. -/
def v1beta1.Artifact.convertFrom (C : Converters PVb TRb PV1 TR1)
    (a : v1beta1.Artifact PVb TRb) (source : v1.Artifact PV1 TR1) : v1beta1.Artifact PVb TRb :=
  let a := { a with Name := source.Name }
  let a := { a with Type_ := source.Type_ }
  let a := { a with Description := source.Description }
  let newValue := C.valueConvertFrom C.zeroValue source.Value
  let a := { a with Value := newValue }
  match source.TaskRef with
  | some taskRef => { a with TaskRef := some (C.taskRefConvertFrom C.zeroTaskRef taskRef) }
  | none => a

/-- Method `func (a Artifacts) convertTo(ctx, sink *v1.Artifacts)`: the sink afterwards. -/
def v1beta1.Artifacts.convertTo (C : Converters PVb TRb PV1 TR1)
    (a : v1beta1.Artifacts PVb TRb) (sink : v1.Artifacts PV1 TR1) : v1.Artifacts PV1 TR1 :=
  let sink := { sink with Inputs := [] }
  let sink := a.Inputs.foldl
    (fun sink ia =>
      { sink with Inputs := sink.Inputs ++ [v1beta1.Artifact.convertTo C ia (v1.Artifact.zero C)] })
    sink
  let sink := { sink with Outputs := [] }
  a.Outputs.foldl
    (fun sink oa =>
      { sink with Outputs := sink.Outputs ++ [v1beta1.Artifact.convertTo C oa (v1.Artifact.zero C)] })
    sink

/-- Method `func (a *Artifacts) convertFrom(ctx, source *v1.Artifacts)`: the receiver afterwards. -/
def v1beta1.Artifacts.convertFrom (C : Converters PVb TRb PV1 TR1)
    (a : v1beta1.Artifacts PVb TRb) (source : v1.Artifacts PV1 TR1) :
    v1beta1.Artifacts PVb TRb :=
  let a := { a with Inputs := [] }
  let a := source.Inputs.foldl
    (fun a ia =>
      { a with Inputs := a.Inputs ++ [v1beta1.Artifact.convertFrom C (v1beta1.Artifact.zero C) ia] })
    a
  let a := { a with Outputs := [] }
  source.Outputs.foldl
    (fun a oa =>
      { a with Outputs := a.Outputs ++ [v1beta1.Artifact.convertFrom C (v1beta1.Artifact.zero C) oa] })
    a

end Conversion

/-- Converters that copy the value they read: used to instantiate the conversion on
strings. -/
def copyConverters : Converters Str Str Str Str :=
  { zeroValue := [], zeroValueV1 := [], zeroTaskRef := [], zeroTaskRefV1 := []
    valueConvertTo := fun v _ => v
    valueConvertFrom := fun _ v => v
    taskRefConvertTo := fun t _ => t
    taskRefConvertFrom := fun _ t => t }

/-! ## artifactref.go: extraction of substitution expressions -/

/-- Constant `artifactExpressionFormat` of artifactref.go. -/
def artifactExpressionFormat : Str := "tasks.<taskName>.artifacts.<artifactName>".toList

/-- Constant `objectArtifactExpressionFormat` of artifactref.go. -/
def objectArtifactExpressionFormat : Str :=
  "tasks.<taskName>.artifacts.<objectArtifactName>.<individualAttribute>".toList

/-- Modelled from the spec: the `ParamValue` of the package is declared outside
artifactref.go; these are the fields the extraction functions read, the type discriminator
and the three variants (scalar, ordered sequence, mapping).  `ObjectVal` is a Go map: it is
held as the list of its entries in the order in which `range` enumerates them, an order Go
leaves unspecified.  The field `Type` is written `Type_`. -/
structure ParamValue where
  Type_ : Str
  StringVal : Str
  ArrayVal : List Str
  ObjectVal : List (Str × Str)
  deriving DecidableEq, Repr

/-- Modelled from the spec: constant `ParamTypeString`, declared with `ParamValue`: the
discriminator of a scalar string value. -/
def ParamTypeString : Str := "string".toList

/-- Modelled from the spec: constant `ParamTypeArray`, declared with `ParamValue`: the
discriminator of an ordered sequence of strings. -/
def ParamTypeArray : Str := "array".toList

/-- Modelled from the spec: constant `ParamTypeObject`, declared with `ParamValue`: the
discriminator of a mapping from strings to strings. -/
def ParamTypeObject : Str := "object".toList

/-- Function `GetVarSubstitutionExpressionsForPipelineArtifact` of artifactref.go; the
scanner `validateString` is declared elsewhere and is a parameter. -/
def GetVarSubstitutionExpressionsForPipelineArtifact {TR : Type}
    (validateString : Str → List Str) (artifact : v1beta1.Artifact ParamValue TR) :
    List Str × Bool :=
  let allExpressions := validateString artifact.Value.StringVal
  let allExpressions := artifact.Value.ArrayVal.foldl
    (fun allExpressions v => allExpressions ++ validateString v) allExpressions
  let allExpressions := artifact.Value.ObjectVal.foldl
    (fun allExpressions kv => allExpressions ++ validateString kv.2) allExpressions
  (allExpressions, decide (allExpressions.length ≠ 0))

/-- Function `GetVarSubstitutionExpressionsForInputArtifact` of artifactref.go; the scanner
`validateString` is declared elsewhere and is a parameter. -/
def GetVarSubstitutionExpressionsForInputArtifact {TR : Type}
    (validateString : Str → List Str) (artifact : v1beta1.Artifact ParamValue TR) :
    List Str × Bool :=
  let allExpressions : List Str := []
  if artifact.Value.Type_ = ParamTypeString then
    let allExpressions := allExpressions ++ validateString artifact.Value.StringVal
    (allExpressions, decide (allExpressions.length ≠ 0))
  else if artifact.Value.Type_ = ParamTypeObject then
    let allExpressions := artifact.Value.ObjectVal.foldl
      (fun allExpressions kv => allExpressions ++ validateString kv.2) allExpressions
    (allExpressions, decide (allExpressions.length ≠ 0))
  else
    ([], false)

/-- The pipeline task, as `PipelineTaskArtifactRefs` reads it: its when-expressions, its
optional `Artifacts`, and the fields `rest` that only `extractAllParams` looks at. -/
structure PipelineTask (R W TR : Type) where
  rest : R
  WhenExpressions : List W
  Artifacts : Option (v1beta1.Artifacts ParamValue TR)

/-- The external collaborators of the extraction: the substitution-token scanner, the
method `extractAllParams` of a pipeline task, and the extractors of a parameter and of a
when-expression (each gives the expressions and whether there is any). -/
structure Extractors (R P W TR : Type) where
  validateString : Str → List Str
  extractAllParams : PipelineTask R W TR → List P
  GetVarSubstitutionExpressionsForParam : P → List Str × Bool
  whenGetVarSubstitutionExpressions : W → List Str × Bool

/-- Function `PipelineTaskArtifactRefs` of artifactref.go. -/
def PipelineTaskArtifactRefs {R P W TR : Type} (K : ResultFormats)
    (X : Extractors R P W TR) (pt : PipelineTask R W TR) : List ArtifactRef :=
  let refs : List ArtifactRef := []
  let refs := (X.extractAllParams pt).foldl
    (fun refs p => refs ++ NewArtifactRefs K (X.GetVarSubstitutionExpressionsForParam p).1)
    refs
  let refs := pt.WhenExpressions.foldl
    (fun refs whenExpression =>
      refs ++ NewArtifactRefs K (X.whenGetVarSubstitutionExpressions whenExpression).1)
    refs
  match pt.Artifacts with
  | some artifacts =>
    artifacts.Inputs.foldl
      (fun refs ia =>
        refs ++ NewArtifactRefs K
          (GetVarSubstitutionExpressionsForInputArtifact X.validateString ia).1)
      refs
  | none => refs

/-- The text up to the next `)`, and what follows that `)`. -/
def takeUntilClose : Str → Option (Str × Str)
  | [] => none
  | c :: cs =>
    if c = ')' then some ([], cs)
    else
      match takeUntilClose cs with
      | some (token, after) => some (c :: token, after)
      | none => none

/-- Scanner of `scanSubstitutionTokens`: `skip` characters of a token are still to be
passed. -/
def scanSubstitutionTokensAux : Nat → Str → List Str
  | _, [] => []
  | skip + 1, _ :: cs => scanSubstitutionTokensAux skip cs
  | 0, c :: cs =>
    if c = '$' ∧ cs.head? = some '(' then
      match takeUntilClose (cs.drop 1) with
      | some (token, _) => token :: scanSubstitutionTokensAux (token.length + 2) cs
      | none => scanSubstitutionTokensAux 0 cs
    else scanSubstitutionTokensAux 0 cs

/-- Modelled from the spec: the substitution-token scanner (`validateString`, declared
outside artifactref.go) as the spec describes it: all the `$(`...`)` delimited tokens of a
string, left to right, each given as the text between `$(` and `)`.  The functions of
artifactref.go take the scanner as a parameter; this one instantiates it on concrete
inputs. -/
def scanSubstitutionTokens (s : Str) : List Str :=
  scanSubstitutionTokensAux 0 s

/-- Extractors on strings for concrete inputs: a parameter and a when-expression are the
string that is scanned, the task carries its parameters. -/
def stringExtractors : Extractors (List Str) Str Str Str :=
  { validateString := scanSubstitutionTokens
    extractAllParams := fun pt => pt.rest
    GetVarSubstitutionExpressionsForParam := fun p =>
      (scanSubstitutionTokens p, decide ((scanSubstitutionTokens p).length ≠ 0))
    whenGetVarSubstitutionExpressions := fun w =>
      (scanSubstitutionTokens w, decide ((scanSubstitutionTokens w).length ≠ 0)) }

/-! ## The message of a `fmt.Errorf` error -/

/-- A hexadecimal digit, lower case. -/
def hexDigit (n : Nat) : Char :=
  "0123456789abcdef".toList.getD n '0'

/-- Go `strconv.Quote` on one character of the ASCII range: the double quote and the
backslash are escaped, a printable character stands for itself, a control character is
written as its escape.  Outside ASCII the result depends on the Unicode tables of Go and
is not modelled (`none`). -/
def strconvQuoteRune (c : Char) : Option Str :=
  if c = Char.ofNat 34 ∨ c = Char.ofNat 92 then some [Char.ofNat 92, c]
  else if 32 ≤ c.toNat ∧ c.toNat < 127 then some [c]
  else if c.toNat = 7 then some [Char.ofNat 92, 'a']
  else if c.toNat = 8 then some [Char.ofNat 92, 'b']
  else if c.toNat = 12 then some [Char.ofNat 92, 'f']
  else if c.toNat = 10 then some [Char.ofNat 92, 'n']
  else if c.toNat = 13 then some [Char.ofNat 92, 'r']
  else if c.toNat = 9 then some [Char.ofNat 92, 't']
  else if c.toNat = 11 then some [Char.ofNat 92, 'v']
  else if c.toNat < 32 ∨ c.toNat = 127 then
    some [Char.ofNat 92, 'x', hexDigit (c.toNat / 16), hexDigit (c.toNat % 16)]
  else none

/-- The escaped characters of a string, one after the other. -/
def strconvQuoteBody : Str → Option Str
  | [] => some []
  | c :: cs =>
    match strconvQuoteRune c, strconvQuoteBody cs with
    | some q, some r => some (q ++ r)
    | _, _ => none

/-- Go `strconv.Quote(s)`, the value of the verb `%q` on a string. -/
def strconvQuote (s : Str) : Option Str :=
  match strconvQuoteBody s with
  | some body => some (Char.ofNat 34 :: (body ++ [Char.ofNat 34]))
  | none => none

/-- Go `fmt.Sprintf(format, args...)` for formats whose only verb is `%q` and whose operands
are strings, one per verb; `none` outside that. -/
def fmtSprintf : Str → List Str → Option Str
  | [], [] => some []
  | [], _ :: _ => none
  | c :: rest, args =>
    if c = '%' then
      match rest, args with
      | 'q' :: rest, a :: args =>
        match strconvQuote a, fmtSprintf rest args with
        | some q, some r => some (q ++ r)
        | _, _ => none
      | _, _ => none
    else
      match fmtSprintf rest args with
      | some r => some (c :: r)
      | none => none

/-- The message `Error()` of an error built by `fmt.Errorf`. -/
def FmtError.Error (e : FmtError) : Option Str :=
  fmtSprintf e.format e.args

/-! ## config/artifacts.go -/

namespace config

/-- Type `ArtifactType` of config/artifacts.go. -/
structure ArtifactType where
  Type_ : Str
  TaskRef : Str
  deriving DecidableEq, Repr

/-- Type `ArtifactConfig` of config/artifacts.go: a slice of pointers, `none` for a nil
pointer. -/
structure ArtifactConfig where
  Type_ : List (Option ArtifactType)
  deriving DecidableEq, Repr

/-- Function `setArtifactConfig` of config/artifacts.go: the configuration behind
`artifactConfig` afterwards, and the error.  `jsonUnmarshal cfg value` is
`json.Unmarshal([]byte(cfg), &value)`: the value afterwards and the error.  The map is read
by key.  The calls of `log.Println` are left out. -/
def setArtifactConfig {E : Type}
    (jsonUnmarshal : Str → ArtifactConfig → ArtifactConfig × Option E)
    (cfgMap : Str → Option Str) (_defaultValue : Option ArtifactConfig)
    (artifactConfig : ArtifactConfig) : ArtifactConfig × Option E :=
  let value : ArtifactConfig := { Type_ := [] }
  match cfgMap "type".toList with
  | some cfg =>
    match jsonUnmarshal cfg value with
    | (_, some err) => (artifactConfig, some err)
    | (value, none) => (value, none)
  | none => (value, none)

/-- Function `NewArtifactConfigFromMap` of config/artifacts.go: the configuration (`none`
for a nil pointer) and the error. -/
def NewArtifactConfigFromMap {E : Type}
    (jsonUnmarshal : Str → ArtifactConfig → ArtifactConfig × Option E)
    (cfgMap : Str → Option Str) : Option ArtifactConfig × Option E :=
  let tc : ArtifactConfig := { Type_ := [] }
  match setArtifactConfig jsonUnmarshal cfgMap none tc with
  | (_, some err) => (none, some err)
  | (tc, none) => (some tc, none)

end config

/-! ## Vocabulary of the statements -/

/-- The segment `i` of an expression, `""` past the last one. -/
def segment (expression : Str) (i : Nat) : Str :=
  (stringsSplit '.' expression).getD i []

/-- The number of dot-separated segments. -/
def segmentCount (expression : Str) : Nat :=
  (stringsSplit '.' expression).length

/-- The string ends in a bracket suffix: `[`, a bracket token, `]`. -/
def HasIndexSuffix (s : Str) : Prop :=
  ∃ bare t, isIndexToken t = true ∧ s = bare ++ '[' :: (t ++ [']'])

/-- The artifact with the entries of its object value enumerated as `entries`. -/
def withObjectVal {TR : Type} (artifact : v1beta1.Artifact ParamValue TR)
    (entries : List (Str × Str)) : v1beta1.Artifact ParamValue TR :=
  { artifact with Value := { artifact.Value with ObjectVal := entries } }

/-- The reference `NewArtifactRefs` builds from the results of a successful parse. -/
def refOfParse (r : Str × Str × Int × Str × Option FmtError) : ArtifactRef :=
  { PipelineTask := r.1, Artifact := r.2.1, ArtifactsIndex := r.2.2.1, Property := r.2.2.2.1 }

/-- The error component of the results of `parseArtifactExpression`. -/
def parseErr (r : Str × Str × Int × Str × Option FmtError) : Option FmtError :=
  r.2.2.2.2


/-! ## Splitting on a separator -/

theorem stringsSplit_ne_nil (sep : Char) (s : Str) : stringsSplit sep s ≠ [] := by
  cases s with
  | nil => simp [stringsSplit]
  | cons c cs =>
    unfold stringsSplit
    split
    · simp
    · split <;> simp

theorem stringsSplit_cons_sep (sep : Char) (s : Str) :
    stringsSplit sep (sep :: s) = [] :: stringsSplit sep s := by
  simp [stringsSplit]

theorem stringsSplit_cons_ne (sep c : Char) (s : Str) (h : c ≠ sep) :
    stringsSplit sep (c :: s)
      = (c :: (stringsSplit sep s).headD []) :: (stringsSplit sep s).tail := by
  have hne := stringsSplit_ne_nil sep s
  rw [stringsSplit, if_neg h]
  cases hs : stringsSplit sep s with
  | nil => exact absurd hs hne
  | cons seg rest => simp

/-- A piece without separator, followed by a separator, is the first segment. -/
theorem stringsSplit_append_sep (sep : Char) (a b : Str) (ha : sep ∉ a) :
    stringsSplit sep (a ++ sep :: b) = a :: stringsSplit sep b := by
  induction a with
  | nil => simp [stringsSplit]
  | cons c cs ih =>
    have hc : c ≠ sep := fun h => ha (by simp [h])
    have hcs : sep ∉ cs := fun h => ha (by simp [h])
    rw [List.cons_append, stringsSplit_cons_ne sep c _ hc, ih hcs]
    simp

/-- A string without separator is its own only segment. -/
theorem stringsSplit_of_not_mem (sep : Char) (a : Str) (ha : sep ∉ a) :
    stringsSplit sep a = [a] := by
  induction a with
  | nil => simp [stringsSplit]
  | cons c cs ih =>
    have hc : c ≠ sep := fun h => ha (by simp [h])
    have hcs : sep ∉ cs := fun h => ha (by simp [h])
    rw [stringsSplit_cons_ne sep c _ hc, ih hcs]
    simp

/-- The first of at least two segments ends at a separator of the string. -/
theorem stringsSplit_eq_cons_cons (sep : Char) (s a b : Str) (rest : List Str)
    (h : stringsSplit sep s = a :: b :: rest) :
    sep ∉ a ∧ ∃ t, s = a ++ sep :: t ∧ stringsSplit sep t = b :: rest := by
  induction s generalizing a with
  | nil => simp [stringsSplit] at h
  | cons c cs ih =>
    by_cases hc : c = sep
    · subst hc
      rw [stringsSplit_cons_sep] at h
      simp only [List.cons.injEq] at h
      obtain ⟨ha, hrest⟩ := h
      subst ha
      exact ⟨by simp, cs, by simp, hrest⟩
    · rw [stringsSplit_cons_ne sep c _ hc] at h
      simp only [List.cons.injEq] at h
      obtain ⟨ha, htail⟩ := h
      cases hs : stringsSplit sep cs with
      | nil => exact absurd hs (stringsSplit_ne_nil sep cs)
      | cons seg tl =>
        rw [hs] at ha htail
        simp only [List.headD_cons, List.tail_cons] at ha htail
        subst ha
        subst htail
        obtain ⟨hseg, t, ht, hsplit⟩ := ih seg hs
        refine ⟨?_, t, ?_, hsplit⟩
        · intro hmem
          rcases List.mem_cons.1 hmem with h1 | h1
          · exact hc h1.symm
          · exact hseg h1
        · simp [ht]

/-- Every segment is free of the separator. -/
theorem not_mem_of_mem_stringsSplit (sep : Char) (s seg : Str)
    (h : seg ∈ stringsSplit sep s) : sep ∉ seg := by
  induction s generalizing seg with
  | nil =>
    simp [stringsSplit] at h
    simp [h]
  | cons c cs ih =>
    by_cases hc : c = sep
    · subst hc
      rw [stringsSplit_cons_sep] at h
      rcases List.mem_cons.1 h with h1 | h1
      · simp [h1]
      · exact ih seg h1
    · rw [stringsSplit_cons_ne sep c _ hc] at h
      cases hs : stringsSplit sep cs with
      | nil => exact absurd hs (stringsSplit_ne_nil sep cs)
      | cons hd tl =>
        rw [hs] at h
        simp only [List.headD_cons, List.tail_cons] at h
        rcases List.mem_cons.1 h with h1 | h1
        · subst h1
          intro hmem
          rcases List.mem_cons.1 hmem with h2 | h2
          · exact hc h2.symm
          · exact ih hd (by simp [hs]) h2
        · exact ih seg (by simp [hs, h1])


/-! ## The classifier -/

theorem looksLikeArtifactRef_eq_true_iff (expr : Str) :
    looksLikeArtifactRef expr = true ↔
      4 ≤ segmentCount expr
        ∧ (segment expr 0 = "tasks".toList ∨ segment expr 0 = "finally".toList)
        ∧ segment expr 2 = "artifacts".toList := by
  simp only [looksLikeArtifactRef, segmentCount, segment, ArtifactTaskPart,
    ArtifactFinallyPart, ArtifactArtifactPart, Bool.and_eq_true, Bool.or_eq_true,
    decide_eq_true_eq, beq_iff_eq, ge_iff_le, and_assoc]

/-- The shape of a string the classifier accepts: keyword, task segment, `artifacts`, and at
least one more segment. -/
theorem looksLikeArtifactRef_shape (expr : Str) :
    looksLikeArtifactRef expr = true ↔
      ∃ kw task tail, (kw = "tasks".toList ∨ kw = "finally".toList) ∧ '.' ∉ task
        ∧ expr = kw ++ '.' :: (task ++ '.' :: ("artifacts".toList ++ '.' :: tail)) := by
  rw [looksLikeArtifactRef_eq_true_iff]
  constructor
  · rintro ⟨hlen, hkw, hart⟩
    unfold segmentCount at hlen
    unfold segment at hkw hart
    match hs : stringsSplit '.' expr, hlen with
    | a :: b :: c :: d :: rest, _ =>
      rw [hs] at hkw hart
      simp only [List.getD_cons_zero, List.getD_cons_succ] at hkw hart
      obtain ⟨-, t1, ht1, hs1⟩ := stringsSplit_eq_cons_cons '.' expr a b _ hs
      obtain ⟨hb, t2, ht2, hs2⟩ := stringsSplit_eq_cons_cons '.' t1 b c _ hs1
      obtain ⟨-, t3, ht3, -⟩ := stringsSplit_eq_cons_cons '.' t2 c d _ hs2
      refine ⟨a, b, t3, hkw, hb, ?_⟩
      rw [ht1, ht2, ht3, hart]
  · rintro ⟨kw, task, tail, hkw, htask, rfl⟩
    have hkw' : '.' ∉ kw := by
      rcases hkw with h | h <;> subst h <;> decide
    have hart : '.' ∉ "artifacts".toList := by decide
    have hsplit : stringsSplit '.'
        (kw ++ '.' :: (task ++ '.' :: ("artifacts".toList ++ '.' :: tail)))
        = kw :: task :: "artifacts".toList :: stringsSplit '.' tail := by
      rw [stringsSplit_append_sep _ _ _ hkw', stringsSplit_append_sep _ _ _ htask,
        stringsSplit_append_sep _ _ _ hart]
    have hne := stringsSplit_ne_nil '.' tail
    unfold segmentCount segment
    rw [hsplit]
    refine ⟨?_, by simpa using hkw, by simp⟩
    cases htl : stringsSplit '.' tail with
    | nil => exact absurd htl hne
    | cons x xs => simp

/-- C2: `looksLikeArtifactRef expr` is true exactly when splitting `expr` on `.` gives at
least 4 segments, segment 0 is `tasks` or `finally` and segment 2 is `artifacts`; nothing is
asked of segments 1, 3 and later: equivalently `expr` is a keyword, a dot, any dot-free text,
`.artifacts.` and any text at all. -/
theorem C2_looksLikeArtifactRef_iff (expr : Str) :
    (looksLikeArtifactRef expr = true ↔
      4 ≤ (stringsSplit '.' expr).length
        ∧ ((stringsSplit '.' expr).getD 0 [] = "tasks".toList
            ∨ (stringsSplit '.' expr).getD 0 [] = "finally".toList)
        ∧ (stringsSplit '.' expr).getD 2 [] = "artifacts".toList)
    ∧ (looksLikeArtifactRef expr = true ↔
        ∃ kw task tail, (kw = "tasks".toList ∨ kw = "finally".toList) ∧ '.' ∉ task
          ∧ expr = kw ++ '.' :: (task ++ '.' :: ("artifacts".toList ++ '.' :: tail))) :=
  ⟨looksLikeArtifactRef_eq_true_iff expr, looksLikeArtifactRef_shape expr⟩

/-! ## The parser: success and failure -/

theorem parseArtifactExpression_of_not_looksLike (K : ResultFormats) (s : Str)
    (h : looksLikeArtifactRef s = false) :
    parseArtifactExpression K s = ([], [], 0, [], some (parseError K)) := by
  simp [parseArtifactExpression, h]

theorem parseArtifactExpression_five (K : ResultFormats) (s : Str)
    (h : looksLikeArtifactRef s = true) (h5 : segmentCount s = 5) :
    parseArtifactExpression K s
      = (segment s 1, (ParseArtifactName (segment s 4)).1,
          if (ParseArtifactName (segment s 4)).2 = [] then 0
          else (strconvAtoi (ParseArtifactName (segment s 4)).2).1,
          [], none) := by
  unfold segmentCount at h5
  unfold segment
  simp only [parseArtifactExpression, h, h5, if_true]
  by_cases ht : (ParseArtifactName ((stringsSplit '.' s).getD 4 [])).2 = []
  · rw [if_neg (not_not.2 ht), if_pos ht]
  · rw [if_pos ht, if_neg ht]

theorem parseArtifactExpression_six (K : ResultFormats) (s : Str)
    (h : looksLikeArtifactRef s = true) (h6 : segmentCount s = 6) :
    parseArtifactExpression K s = (segment s 1, segment s 4, 0, segment s 5, none) := by
  unfold segmentCount at h6
  unfold segment
  simp [parseArtifactExpression, h, h6]

theorem parseArtifactExpression_other (K : ResultFormats) (s : Str)
    (h5 : segmentCount s ≠ 5) (h6 : segmentCount s ≠ 6) :
    parseArtifactExpression K s = ([], [], 0, [], some (parseError K)) := by
  unfold segmentCount at h5 h6
  simp [parseArtifactExpression, h5, h6]

/-- The parse succeeds exactly on the accepted strings with 5 or 6 segments. -/
theorem parseErr_eq_none_iff (K : ResultFormats) (s : Str) :
    parseErr (parseArtifactExpression K s) = none ↔
      looksLikeArtifactRef s = true ∧ (segmentCount s = 5 ∨ segmentCount s = 6) := by
  by_cases h : looksLikeArtifactRef s = true
  · by_cases h5 : segmentCount s = 5
    · simp [parseArtifactExpression_five K s h h5, parseErr, h, h5]
    · by_cases h6 : segmentCount s = 6
      · simp [parseArtifactExpression_six K s h h6, parseErr, h, h6]
      · simp [parseArtifactExpression_other K s h5 h6, parseErr, h5, h6]
  · have h' : looksLikeArtifactRef s = false := by simpa using h
    simp [parseArtifactExpression_of_not_looksLike K s h', parseErr, h']

/-- A failed parse returns the zero results and the one error of the function. -/
theorem parseArtifactExpression_of_err (K : ResultFormats) (s : Str)
    (h : parseErr (parseArtifactExpression K s) ≠ none) :
    parseArtifactExpression K s = ([], [], 0, [], some (parseError K)) := by
  by_cases hl : looksLikeArtifactRef s = true
  · by_cases h5 : segmentCount s = 5
    · exact absurd ((parseErr_eq_none_iff K s).2 ⟨hl, Or.inl h5⟩) h
    · by_cases h6 : segmentCount s = 6
      · exact absurd ((parseErr_eq_none_iff K s).2 ⟨hl, Or.inr h6⟩) h
      · exact parseArtifactExpression_other K s h5 h6
  · exact parseArtifactExpression_of_not_looksLike K s (by simpa using hl)

/-- C1: `parseArtifactExpression s` returns no error if and only if `looksLikeArtifactRef s`
holds and `s` has exactly 5 or exactly 6 dot-separated segments; in every other case (a
rejected string, or an accepted one with 4 or with 7 or more segments) it returns an error
together with the zero results `("", "", 0, "")`. -/
theorem C1_parseArtifactExpression_error_iff (K : ResultFormats) (s : Str) :
    ((parseArtifactExpression K s).2.2.2.2 = none ↔
      looksLikeArtifactRef s = true
        ∧ ((stringsSplit '.' s).length = 5 ∨ (stringsSplit '.' s).length = 6))
    ∧ (¬ (looksLikeArtifactRef s = true
          ∧ ((stringsSplit '.' s).length = 5 ∨ (stringsSplit '.' s).length = 6)) ↔
        parseArtifactExpression K s = ([], [], 0, [], some (parseError K))) := by
  have hiff := parseErr_eq_none_iff K s
  unfold parseErr segmentCount at hiff
  refine ⟨hiff, ?_⟩
  constructor
  · intro hnot
    refine parseArtifactExpression_of_err K s ?_
    intro hnone
    exact hnot (hiff.1 hnone)
  · intro he hcond
    have := hiff.2 hcond
    rw [he] at this
    simp at this


/-! ## The array-indexing pattern: where it matches -/

/-- A bracket token holds digits, or one star. -/
theorem not_mem_of_isIndexToken (t : Str) (ht : isIndexToken t = true) (c : Char)
    (hd : Char.isDigit c = false) (hs : c ≠ '*') : c ∉ t := by
  simp only [isIndexToken, isDecimal, Bool.or_eq_true, Bool.and_eq_true, beq_iff_eq,
    List.all_eq_true] at ht
  intro hc
  rcases ht with ⟨-, hall⟩ | hstar
  · rw [hall c hc] at hd
    exact Bool.noConfusion hd
  · rw [hstar, List.mem_singleton] at hc
    exact hs hc

/-- The pattern matches a string that is a bracket suffix and nothing else. -/
theorem arrayIndexingMatchLen_group (t : Str) (ht : isIndexToken t = true) :
    arrayIndexingMatchLen ('[' :: (t ++ [']'])) = some (t.length + 2) := by
  have h1 : (t ++ [']']).getLast? = some ']' := List.getLast?_concat t
  have h2 : (t ++ [']']).dropLast = t := List.dropLast_concat
  simp only [arrayIndexingMatchLen, h1, h2, ht, and_self, if_true, List.length_append,
    List.length_singleton]

/-- A match of the pattern at the start of a string: the string is a bracket suffix. -/
theorem arrayIndexingMatchLen_eq_some (s : Str) (n : Nat)
    (h : arrayIndexingMatchLen s = some n) :
    ∃ t, isIndexToken t = true ∧ s = '[' :: (t ++ [']']) ∧ n = t.length + 2 := by
  unfold arrayIndexingMatchLen at h
  split at h
  · rename_i rest
    split at h
    · rename_i hcond
      have hrest : rest.dropLast ++ [']'] = rest :=
        List.dropLast_append_getLast? ']' (by rw [hcond.1]; rfl)
      refine ⟨rest.dropLast, hcond.2, by rw [hrest], ?_⟩
      simp only [Option.some.injEq] at h
      rw [← h]
      conv_lhs => rw [← hrest]
      simp
    · exact Option.noConfusion h
  · exact Option.noConfusion h

theorem arrayIndexingMatchLen_of_ne (c : Char) (cs : Str) (h : c ≠ '[') :
    arrayIndexingMatchLen (c :: cs) = none := by
  unfold arrayIndexingMatchLen
  split
  · rename_i heq
    simp only [List.cons.injEq] at heq
    exact absurd heq.1 h
  · rfl

/-- Before a bracket suffix no match starts. -/
theorem arrayIndexingMatchLen_before_suffix (c : Char) (bare t : Str) :
    arrayIndexingMatchLen ((c :: bare) ++ '[' :: (t ++ [']'])) = none := by
  cases hv : arrayIndexingMatchLen ((c :: bare) ++ '[' :: (t ++ [']'])) with
  | none => rfl
  | some n =>
    exfalso
    obtain ⟨t', ht', hs, -⟩ := arrayIndexingMatchLen_eq_some _ _ hv
    rw [List.cons_append] at hs
    simp only [List.cons.injEq] at hs
    have hmem : '[' ∈ t' ++ [']'] := by
      rw [← hs.2]
      simp
    rcases List.mem_append.1 hmem with h | h
    · exact not_mem_of_isIndexToken t' ht' '[' (by decide) (by decide) h
    · simp only [List.mem_singleton] at h
      exact absurd h (by decide)

theorem not_hasIndexSuffix_nil : ¬ HasIndexSuffix [] := by
  rintro ⟨bare, t, -, h⟩
  simp at h

theorem hasIndexSuffix_cons (c : Char) (cs : Str) (h : HasIndexSuffix cs) :
    HasIndexSuffix (c :: cs) := by
  obtain ⟨bare, t, ht, rfl⟩ := h
  exact ⟨c :: bare, t, ht, by simp⟩

/-- A bracket suffix of `c :: cs` is all of it (a match at the start) or a suffix of `cs`. -/
theorem hasIndexSuffix_cons_cases (c : Char) (cs : Str) (h : HasIndexSuffix (c :: cs)) :
    (∃ n, arrayIndexingMatchLen (c :: cs) = some n) ∨ HasIndexSuffix cs := by
  obtain ⟨bare, t, ht, hs⟩ := h
  cases bare with
  | nil =>
    left
    rw [List.nil_append] at hs
    rw [hs]
    exact ⟨_, arrayIndexingMatchLen_group t ht⟩
  | cons p ps =>
    right
    rw [List.cons_append] at hs
    simp only [List.cons.injEq] at hs
    exact ⟨ps, t, ht, hs.2⟩

theorem not_hasIndexSuffix_of_not_mem (n : Str) (h : '[' ∉ n) : ¬ HasIndexSuffix n := by
  rintro ⟨bare, t, -, rfl⟩
  exact h (by simp)

/-- Dropping the characters of a match that is still open. -/
theorem arrayIndexingRemoveAux_append (a b : Str) :
    arrayIndexingRemoveAux a.length (a ++ b) = arrayIndexingRemoveAux 0 b := by
  induction a with
  | nil => rfl
  | cons c cs ih =>
    rw [List.length_cons, List.cons_append, arrayIndexingRemoveAux]
    exact ih

/-! ## `FindString` and `ReplaceAllString` on the array-indexing pattern -/

/-- Without bracket suffix nothing is found and nothing is removed. -/
theorem arrayIndexing_of_no_suffix (s : Str) (h : ¬ HasIndexSuffix s) :
    arrayIndexingFindString s = [] ∧ arrayIndexingRemoveAux 0 s = s := by
  induction s with
  | nil => exact ⟨rfl, rfl⟩
  | cons c cs ih =>
    have hm : arrayIndexingMatchLen (c :: cs) = none := by
      cases hv : arrayIndexingMatchLen (c :: cs) with
      | none => rfl
      | some n =>
        exfalso
        obtain ⟨t, ht, hs, -⟩ := arrayIndexingMatchLen_eq_some _ _ hv
        exact h ⟨[], t, ht, by rw [hs]; rfl⟩
    obtain ⟨h1, h2⟩ := ih (fun hcs => h (hasIndexSuffix_cons c cs hcs))
    constructor
    · rw [arrayIndexingFindString, hm]
      exact h1
    · rw [arrayIndexingRemoveAux, hm]
      simp only
      rw [h2]

/-- A bracket suffix is what is found, and what is removed. -/
theorem arrayIndexing_of_suffix (bare t : Str) (ht : isIndexToken t = true) :
    arrayIndexingFindString (bare ++ '[' :: (t ++ [']'])) = '[' :: (t ++ [']'])
      ∧ arrayIndexingRemoveAux 0 (bare ++ '[' :: (t ++ [']'])) = bare := by
  induction bare with
  | nil =>
    have hm := arrayIndexingMatchLen_group t ht
    constructor
    · rw [List.nil_append, arrayIndexingFindString, hm]
      simp only
      have : t.length + 2 = ('[' :: (t ++ [']'])).length := by simp
      rw [this, List.take_length]
    · rw [List.nil_append, arrayIndexingRemoveAux, hm]
      simp only
      have h3 : t.length + 2 - 1 = (t ++ [']']).length := by simp
      have h4 := arrayIndexingRemoveAux_append (t ++ [']']) []
      rw [List.append_nil] at h4
      rw [h3, h4]
      rfl
  | cons c cs ih =>
    have hm := arrayIndexingMatchLen_before_suffix c cs t
    rw [List.cons_append] at hm ⊢
    constructor
    · rw [arrayIndexingFindString, hm]
      exact ih.1
    · rw [arrayIndexingRemoveAux, hm]
      simp only
      rw [ih.2]

theorem stringsTrim_nil :
    stringsTrimSuffix (stringsTrimPrefix [] ['[']) [']'] = [] := by
  decide

theorem stringsTrim_group (t : Str) :
    stringsTrimSuffix (stringsTrimPrefix ('[' :: (t ++ [']'])) ['[']) [']'] = t := by
  have h1 : stringsTrimPrefix ('[' :: (t ++ [']'])) ['['] = t ++ [']'] := by
    simp [stringsTrimPrefix, List.isPrefixOf]
  rw [h1]
  have h2 : List.isSuffixOf [']'] (t ++ [']']) = true := by
    rw [List.isSuffixOf_iff_suffix]
    exact List.suffix_append t [']']
  simp [stringsTrimSuffix, h2]

/-! ## `ParseArtifactName` -/

theorem ParseArtifactName_of_no_suffix (name : Str) (h : ¬ HasIndexSuffix name) :
    ParseArtifactName name = (name, []) := by
  obtain ⟨hf, hr⟩ := arrayIndexing_of_no_suffix name h
  simp only [ParseArtifactName, arrayIndexingReplaceAllEmpty, hf, hr, stringsTrim_nil]

theorem ParseArtifactName_of_not_mem (n : Str) (hn : '[' ∉ n) :
    ParseArtifactName n = (n, []) :=
  ParseArtifactName_of_no_suffix n (not_hasIndexSuffix_of_not_mem n hn)

/-- A bracket suffix is stripped, and its token returned. -/
theorem ParseArtifactName_suffix (bare t : Str) (ht : isIndexToken t = true) :
    ParseArtifactName (bare ++ '[' :: (t ++ [']'])) = (bare, t) := by
  obtain ⟨hf, hr⟩ := arrayIndexing_of_suffix bare t ht
  simp only [ParseArtifactName, arrayIndexingReplaceAllEmpty, hf, hr, stringsTrim_group]

theorem ParseArtifactName_nil : ParseArtifactName [] = ([], []) := by
  decide

theorem isIndexToken_of_isDecimal (d : Str) (h : isDecimal d = true) :
    isIndexToken d = true := by
  simp only [isIndexToken, h, Bool.true_or]

theorem isIndexToken_star : isIndexToken ['*'] = true := by
  decide

/-- A name has no bracket suffix, or is a bare name followed by one. -/
theorem ParseArtifactName_cases (name : Str) :
    (¬ HasIndexSuffix name ∧ ParseArtifactName name = (name, []))
    ∨ (∃ bare t, name = bare ++ '[' :: (t ++ [']']) ∧ isIndexToken t = true
        ∧ ParseArtifactName name = (bare, t)) := by
  by_cases h : HasIndexSuffix name
  · obtain ⟨bare, t, ht, hs⟩ := h
    exact Or.inr ⟨bare, t, hs, ht, by rw [hs]; exact ParseArtifactName_suffix bare t ht⟩
  · exact Or.inl ⟨h, ParseArtifactName_of_no_suffix name h⟩

/-! ## `strconv.Atoi` on a string of digits -/

theorem head?_ne_sign_of_isDecimal (d : Str) (h : isDecimal d = true) :
    ¬ (d.head? = some '-' ∨ d.head? = some '+') := by
  simp only [isDecimal, Bool.and_eq_true, List.all_eq_true] at h
  cases d with
  | nil => simp
  | cons c cs =>
    have hc : Char.isDigit c = true := h.2 c (by simp)
    simp only [List.head?_cons, Option.some.injEq]
    rintro (rfl | rfl) <;> exact absurd hc (by decide)

/-- Digits with a value that fits `int` are read as their value, without error. -/
theorem strconvAtoi_of_isDecimal (d : Str) (h : isDecimal d = true)
    (hlt : decimalValue d < 2 ^ 63) : strconvAtoi d = ((decimalValue d : Int), false) := by
  have hsign := head?_ne_sign_of_isDecimal d h
  have hneg : ¬ (d.head? = some '-') := fun hh => hsign (Or.inl hh)
  simp only [isDecimal, Bool.and_eq_true, bne_iff_ne, ne_eq] at h
  have hbody : ¬ (d = [] ∨ ¬ d.all Char.isDigit = true) := by
    rintro (h1 | h1)
    · exact h.1 h1
    · exact h1 h.2
  have hcut : ¬ (decimalValue d ≥ 2 ^ (intSize - 1)) := by
    simp only [intSize]
    omega
  have hplus : ¬ (d.head? = some '+') := fun hh => hsign (Or.inr hh)
  have hd1 : (d = []) = False := eq_false h.1
  have hcut' : (decimalValue d ≥ 2 ^ (intSize - 1)) = False := eq_false hcut
  simp only [strconvAtoi, eq_false hneg, eq_false hplus, or_self, if_false, hd1, h.2,
    not_true_eq_false, hcut', and_false, false_and, ite_false]

/-! ## The parser on 5 and on 6 segments -/

/-- C3 (amended): on a 5-segment string that `looksLikeArtifactRef` accepts, the parser
returns, without error, segment 1 as the producing task, the bare name `ParseArtifactName`
gives for segment 4, an empty property, and as index the decimal value of the bracket token
when segment 4 ends in `[<digits>]` and that value is below `2^63`, and 0 when it has no
bracket.  `tasks.build.artifacts.outputs.sbom` gives `("build", "sbom", 0, "")` and
`tasks.build.artifacts.outputs.items[2]` gives `("build", "items", 2, "")`. -/
theorem C3_parse_five_segments (K : ResultFormats) :
    (∀ s : Str, looksLikeArtifactRef s = true → (stringsSplit '.' s).length = 5 →
      parseArtifactExpression K s
          = (segment s 1, (ParseArtifactName (segment s 4)).1,
              if (ParseArtifactName (segment s 4)).2 = [] then 0
              else (strconvAtoi (ParseArtifactName (segment s 4)).2).1,
              [], none)
        ∧ (∀ n d : Str, segment s 4 = n ++ '[' :: (d ++ [']']) →
            isDecimal d = true → decimalValue d < 2 ^ 63 →
            parseArtifactExpression K s = (segment s 1, n, (decimalValue d : Int), [], none))
        ∧ (¬ HasIndexSuffix (segment s 4) →
            parseArtifactExpression K s = (segment s 1, segment s 4, 0, [], none))
        ∧ ('[' ∉ segment s 4 →
            parseArtifactExpression K s = (segment s 1, segment s 4, 0, [], none)))
    ∧ parseArtifactExpression K "tasks.build.artifacts.outputs.sbom".toList
        = ("build".toList, "sbom".toList, 0, [], none)
    ∧ parseArtifactExpression K "tasks.build.artifacts.outputs.items[2]".toList
        = ("build".toList, "items".toList, 2, [], none) := by
  refine ⟨?_, rfl, rfl⟩
  intro s hl h5
  have hparse := parseArtifactExpression_five K s hl h5
  have hno : ¬ HasIndexSuffix (segment s 4) →
      parseArtifactExpression K s = (segment s 1, segment s 4, 0, [], none) := by
    intro hn
    rw [hparse, ParseArtifactName_of_no_suffix _ hn]
    simp
  refine ⟨hparse, ?_, hno, fun hn => hno (not_hasIndexSuffix_of_not_mem _ hn)⟩
  intro n d hseg hd hlt
  have hname := ParseArtifactName_suffix n d (isIndexToken_of_isDecimal d hd)
  have hdne : d ≠ [] := by
    simp only [isDecimal, Bool.and_eq_true, bne_iff_ne, ne_eq] at hd
    exact hd.1
  rw [hparse, hseg, hname]
  simp only [if_neg hdne, strconvAtoi_of_isDecimal d hd hlt]

/-- The five-segment rule at `tasks.build.artifacts.outputs.items[1][2]`: the name is what
stands before the last bracket. -/
theorem C3_parse_five_segments_witness :
    looksLikeArtifactRef "tasks.build.artifacts.outputs.items[1][2]".toList = true
      ∧ (stringsSplit '.' "tasks.build.artifacts.outputs.items[1][2]".toList).length = 5
      ∧ parseArtifactExpression ⟨[], []⟩ "tasks.build.artifacts.outputs.items[1][2]".toList
          = ("build".toList, "items[1]".toList, 2, [], none) :=
  ⟨by decide, by decide,
    ((C3_parse_five_segments ⟨[], []⟩).1 "tasks.build.artifacts.outputs.items[1][2]".toList
      (by decide) (by decide)).2.1 "items[1]".toList "2".toList (by decide) (by decide)
      (by decide)⟩

/-- C3 fails as stated: a bracket token of digits whose value does not fit `int` is not
returned as its decimal value; `strconv.Atoi` gives the largest `int` and the error is
discarded. -/
theorem C3_counterexample :
    parseArtifactExpression ⟨[], []⟩
        "tasks.build.artifacts.outputs.items[9223372036854775808]".toList
      = ("build".toList, "items".toList, 9223372036854775807, [], none)
    ∧ (parseArtifactExpression ⟨[], []⟩
          "tasks.build.artifacts.outputs.items[9223372036854775808]".toList).2.2.1
        ≠ (decimalValue "9223372036854775808".toList : Int) := by
  decide

/-- C4: on a 6-segment string that `looksLikeArtifactRef` accepts, the parser succeeds with
producing task segment 1, artifact name segment 4 verbatim, property segment 5 verbatim and
index 0; `tasks.build.artifacts.outputs.meta.owner` gives `("build", "meta", 0, "owner")`. -/
theorem C4_parse_six_segments (K : ResultFormats) :
    (∀ s : Str, looksLikeArtifactRef s = true → (stringsSplit '.' s).length = 6 →
      parseArtifactExpression K s
        = ((stringsSplit '.' s).getD 1 [], (stringsSplit '.' s).getD 4 [], 0,
            (stringsSplit '.' s).getD 5 [], none))
    ∧ parseArtifactExpression K "tasks.build.artifacts.outputs.meta.owner".toList
        = ("build".toList, "meta".toList, 0, "owner".toList, none) :=
  ⟨fun s hl h6 => parseArtifactExpression_six K s hl h6, rfl⟩

/-- The six-segment rule at `finally.t.artifacts.inputs.a[1].b`: the bracket stays in the
name. -/
theorem C4_parse_six_segments_witness :
    looksLikeArtifactRef "finally.t.artifacts.inputs.a[1].b".toList = true
      ∧ (stringsSplit '.' "finally.t.artifacts.inputs.a[1].b".toList).length = 6
      ∧ parseArtifactExpression ⟨[], []⟩ "finally.t.artifacts.inputs.a[1].b".toList
          = ("t".toList, "a[1]".toList, 0, "b".toList, none) :=
  ⟨by decide, by decide,
    (C4_parse_six_segments ⟨[], []⟩).1 "finally.t.artifacts.inputs.a[1].b".toList
      (by decide) (by decide)⟩


/-! ## `NewArtifactRefs` -/

/-- One iteration appends the reference of a successful parse, and nothing otherwise. -/
theorem NewArtifactRefs_step_eq (K : ResultFormats) (acc : List ArtifactRef) (e : Str) :
    NewArtifactRefs.step K acc e
      = acc ++ (if parseErr (parseArtifactExpression K e) = none
                then [refOfParse (parseArtifactExpression K e)] else []) := by
  unfold NewArtifactRefs.step
  rcases hp : parseArtifactExpression K e with ⟨a, b, c, d, _ | err⟩
  · simp [parseErr, refOfParse]
  · simp [parseErr]

theorem foldl_step_eq (K : ResultFormats) (xs : List Str) (acc : List ArtifactRef) :
    xs.foldl (NewArtifactRefs.step K) acc
      = acc ++ (xs.filter (fun e => (parseErr (parseArtifactExpression K e)).isNone)).map
          (fun e => refOfParse (parseArtifactExpression K e)) := by
  induction xs generalizing acc with
  | nil => simp
  | cons x xs ih =>
    rw [List.foldl_cons, ih, NewArtifactRefs_step_eq]
    by_cases h : parseErr (parseArtifactExpression K x) = none
    · simp [h, List.filter_cons]
    · have h' : (parseErr (parseArtifactExpression K x)).isNone = false := by
        cases hv : parseErr (parseArtifactExpression K x) with
        | none => exact absurd hv h
        | some v => rfl
      simp [h, h', List.filter_cons]

theorem NewArtifactRefs_eq_filter_map (K : ResultFormats) (xs : List Str) :
    NewArtifactRefs K xs
      = (xs.filter (fun e => (parseErr (parseArtifactExpression K e)).isNone)).map
          (fun e => refOfParse (parseArtifactExpression K e)) := by
  unfold NewArtifactRefs
  rw [foldl_step_eq]
  simp

theorem LooksLikeContainsArtifactRefs_eq_false (xs : List Str)
    (h : LooksLikeContainsArtifactRefs xs = false) :
    ∀ e ∈ xs, looksLikeArtifactRef e = false := by
  induction xs with
  | nil => simp
  | cons x xs ih =>
    unfold LooksLikeContainsArtifactRefs at h
    by_cases hx : looksLikeArtifactRef x = true
    · simp [hx] at h
    · simp only [hx, if_false] at h
      intro e he
      rcases List.mem_cons.1 he with rfl | he
      · simpa using hx
      · exact ih h e he

theorem parseErr_ne_none_of_not_looksLike (K : ResultFormats) (s : Str)
    (h : looksLikeArtifactRef s = false) :
    parseErr (parseArtifactExpression K s) ≠ none := by
  rw [parseArtifactExpression_of_not_looksLike K s h]
  simp [parseErr]

/-- C5: when `looksLikeArtifactRef s` is false, `parseArtifactExpression s` returns an error
and `NewArtifactRefs [s]` is empty; and `NewArtifactRefs` is empty on every list of
expressions on which `LooksLikeContainsArtifactRefs` is false. -/
theorem C5_not_looksLike_yields_nothing (K : ResultFormats) :
    (∀ s : Str, looksLikeArtifactRef s = false →
      (parseArtifactExpression K s).2.2.2.2 ≠ none ∧ NewArtifactRefs K [s] = [])
    ∧ (∀ xs : List Str, LooksLikeContainsArtifactRefs xs = false →
        NewArtifactRefs K xs = []) := by
  constructor
  · intro s h
    have herr := parseErr_ne_none_of_not_looksLike K s h
    refine ⟨herr, ?_⟩
    rw [NewArtifactRefs_eq_filter_map]
    have h' : (parseErr (parseArtifactExpression K s)).isNone = false := by
      cases hv : parseErr (parseArtifactExpression K s) with
      | none => exact absurd hv herr
      | some v => rfl
    simp [List.filter_cons, h']
  · intro xs h
    have hall := LooksLikeContainsArtifactRefs_eq_false xs h
    rw [NewArtifactRefs_eq_filter_map]
    have hfilter : xs.filter (fun e => (parseErr (parseArtifactExpression K e)).isNone) = [] := by
      rw [List.filter_eq_nil_iff]
      intro e he
      have herr := parseErr_ne_none_of_not_looksLike K e (hall e he)
      cases hv : parseErr (parseArtifactExpression K e) with
      | none => exact absurd hv herr
      | some v => simp
    rw [hfilter]
    rfl

/-- The rejected strings `params.x` and `tasks.t.results.r` yield an error and no
reference. -/
theorem C5_not_looksLike_yields_nothing_witness :
    looksLikeArtifactRef "params.x".toList = false
      ∧ LooksLikeContainsArtifactRefs ["params.x".toList, "tasks.t.results.r".toList] = false
      ∧ ((parseArtifactExpression ⟨[], []⟩ "params.x".toList).2.2.2.2 ≠ none
          ∧ NewArtifactRefs ⟨[], []⟩ ["params.x".toList] = [])
      ∧ NewArtifactRefs ⟨[], []⟩ ["params.x".toList, "tasks.t.results.r".toList] = [] :=
  ⟨by decide, by decide,
    (C5_not_looksLike_yields_nothing ⟨[], []⟩).1 "params.x".toList (by decide),
    (C5_not_looksLike_yields_nothing ⟨[], []⟩).2
      ["params.x".toList, "tasks.t.results.r".toList] (by decide)⟩

/-- C6: `NewArtifactRefs` returns one reference per expression on which
`parseArtifactExpression` succeeds, in the order of the input and with duplicates kept, its
four fields being the four values the parser returned; an expression that fails to parse
contributes nothing, so `NewArtifactRefs (xs ++ ys)` is
`NewArtifactRefs xs ++ NewArtifactRefs ys`. -/
theorem C6_NewArtifactRefs_filter_map (K : ResultFormats) (xs ys : List Str) :
    NewArtifactRefs K xs
        = (xs.filter (fun e => ((parseArtifactExpression K e).2.2.2.2).isNone)).map
            (fun e =>
              { PipelineTask := (parseArtifactExpression K e).1
                Artifact := (parseArtifactExpression K e).2.1
                ArtifactsIndex := (parseArtifactExpression K e).2.2.1
                Property := (parseArtifactExpression K e).2.2.2.1 })
    ∧ NewArtifactRefs K (xs ++ ys) = NewArtifactRefs K xs ++ NewArtifactRefs K ys := by
  constructor
  · exact NewArtifactRefs_eq_filter_map K xs
  · simp only [NewArtifactRefs_eq_filter_map, List.filter_append, List.map_append]

/-! ## `ParseArtifactName`: what is stripped -/

/-- C7: `ParseArtifactName name = (bare, token)` strips only a trailing bracket suffix:
either `token = ""` and `bare = name` (no bracket suffix was present), or
`name = bare ++ "[" ++ token ++ "]"` where `token` is a decimal integer or the literal `*`;
and a bracket suffix that is present is stripped: for every such `bare` and `token` the
result is `(bare, token)`. -/
theorem C7_ParseArtifactName_strips_suffix (name : Str) :
    (((ParseArtifactName name).2 = [] ∧ (ParseArtifactName name).1 = name)
      ∨ (name = (ParseArtifactName name).1 ++ "[".toList ++ (ParseArtifactName name).2
            ++ "]".toList
          ∧ (isDecimal (ParseArtifactName name).2 = true
              ∨ (ParseArtifactName name).2 = "*".toList)))
    ∧ (∀ bare token : Str, name = bare ++ "[".toList ++ token ++ "]".toList →
        (isDecimal token = true ∨ token = "*".toList) →
        ParseArtifactName name = (bare, token)) := by
  constructor
  · rcases ParseArtifactName_cases name with ⟨-, h⟩ | ⟨bare, t, hs, ht, h⟩
    · left
      rw [h]
      exact ⟨rfl, rfl⟩
    · right
      rw [h]
      refine ⟨by rw [hs]; simp [String.toList], ?_⟩
      simpa only [isIndexToken, Bool.or_eq_true, beq_iff_eq] using ht
  · intro bare token hs htok
    have ht : isIndexToken token = true := by
      simpa only [isIndexToken, Bool.or_eq_true, beq_iff_eq] using htok
    have hname : name = bare ++ '[' :: (token ++ [']']) := by
      rw [hs]; simp [String.toList]
    rw [hname]
    exact ParseArtifactName_suffix bare token ht

/-- The stripping rule at `items[1]x[3]`: only the trailing bracket goes. -/
theorem C7_ParseArtifactName_strips_suffix_witness :
    ParseArtifactName "items[1]x[3]".toList = ("items[1]x".toList, "3".toList) :=
  (C7_ParseArtifactName_strips_suffix "items[1]x[3]".toList).2 "items[1]x".toList "3".toList
    (by decide) (by decide)

/-- C8: for a name `n` with no `[` and no `]` and a non-empty string `d` of decimal digits,
`ParseArtifactName (n ++ "[" ++ d ++ "]") = (n, d)`, `ParseArtifactName (n ++ "[*]") =
(n, "*")` and `ParseArtifactName n = (n, "")`; `items[3]` gives `("items", "3")`,
`anArrayArtifact[*]` gives `("anArrayArtifact", "*")` and `items` gives `("items", "")`. -/
theorem C8_ParseArtifactName_simple_names :
    (∀ n d : Str, '[' ∉ n → ']' ∉ n → d ≠ [] → (∀ c ∈ d, Char.isDigit c = true) →
      ParseArtifactName (n ++ "[".toList ++ d ++ "]".toList) = (n, d)
        ∧ ParseArtifactName (n ++ "[*]".toList) = (n, "*".toList)
        ∧ ParseArtifactName n = (n, []))
    ∧ ParseArtifactName "items[3]".toList = ("items".toList, "3".toList)
    ∧ ParseArtifactName "anArrayArtifact[*]".toList = ("anArrayArtifact".toList, "*".toList)
    ∧ ParseArtifactName "items".toList = ("items".toList, []) := by
  refine ⟨?_, by decide, by decide, by decide⟩
  intro n d hn _ hdne hd
  have hdec : isDecimal d = true := by
    simp only [isDecimal, Bool.and_eq_true, bne_iff_ne, ne_eq, List.all_eq_true]
    exact ⟨hdne, hd⟩
  have h1 := ParseArtifactName_suffix n d (isIndexToken_of_isDecimal d hdec)
  have h2 := ParseArtifactName_suffix n ['*'] isIndexToken_star
  refine ⟨?_, ?_, ParseArtifactName_of_not_mem n hn⟩
  · have : n ++ "[".toList ++ d ++ "]".toList = n ++ '[' :: (d ++ [']']) := by
      simp [String.toList]
    rw [this, h1]
  · have : n ++ "[*]".toList = n ++ '[' :: (['*'] ++ [']']) := by
      simp [String.toList]
    rw [this, h2]
    rfl

/-- The rule for simple names at `n = "my-artifact"`, `d = "07"`. -/
theorem C8_ParseArtifactName_simple_names_witness :
    ParseArtifactName ("my-artifact".toList ++ "[".toList ++ "07".toList ++ "]".toList)
        = ("my-artifact".toList, "07".toList)
      ∧ ParseArtifactName ("my-artifact".toList ++ "[*]".toList)
        = ("my-artifact".toList, "*".toList)
      ∧ ParseArtifactName "my-artifact".toList = ("my-artifact".toList, []) :=
  C8_ParseArtifactName_simple_names.1 "my-artifact".toList "07".toList (by decide) (by decide)
    (by decide) (by decide)

/-! ## artifact_conversion.go -/

section ConversionProofs

variable {PVb TRb PV1 TR1 : Type}

theorem foldl_append_inputs_v1 (f : v1beta1.Artifact PVb TRb → v1.Artifact PV1 TR1)
    (xs : List (v1beta1.Artifact PVb TRb)) (sink : v1.Artifacts PV1 TR1) :
    xs.foldl (fun sink ia => { sink with Inputs := sink.Inputs ++ [f ia] }) sink
      = { sink with Inputs := sink.Inputs ++ xs.map f } := by
  induction xs generalizing sink with
  | nil => simp
  | cons x xs ih => simp [List.foldl_cons, ih]

theorem foldl_append_outputs_v1 (f : v1beta1.Artifact PVb TRb → v1.Artifact PV1 TR1)
    (xs : List (v1beta1.Artifact PVb TRb)) (sink : v1.Artifacts PV1 TR1) :
    xs.foldl (fun sink oa => { sink with Outputs := sink.Outputs ++ [f oa] }) sink
      = { sink with Outputs := sink.Outputs ++ xs.map f } := by
  induction xs generalizing sink with
  | nil => simp
  | cons x xs ih => simp [List.foldl_cons, ih]

theorem foldl_append_inputs_v1beta1 (f : v1.Artifact PV1 TR1 → v1beta1.Artifact PVb TRb)
    (xs : List (v1.Artifact PV1 TR1)) (a : v1beta1.Artifacts PVb TRb) :
    xs.foldl (fun a ia => { a with Inputs := a.Inputs ++ [f ia] }) a
      = { a with Inputs := a.Inputs ++ xs.map f } := by
  induction xs generalizing a with
  | nil => simp
  | cons x xs ih => simp [List.foldl_cons, ih]

theorem foldl_append_outputs_v1beta1 (f : v1.Artifact PV1 TR1 → v1beta1.Artifact PVb TRb)
    (xs : List (v1.Artifact PV1 TR1)) (a : v1beta1.Artifacts PVb TRb) :
    xs.foldl (fun a oa => { a with Outputs := a.Outputs ++ [f oa] }) a
      = { a with Outputs := a.Outputs ++ xs.map f } := by
  induction xs generalizing a with
  | nil => simp
  | cons x xs ih => simp [List.foldl_cons, ih]

/-- The sink of `Artifacts.convertTo` holds the element-wise conversions, in order. -/
theorem Artifacts_convertTo_eq (C : Converters PVb TRb PV1 TR1)
    (a : v1beta1.Artifacts PVb TRb) (sink : v1.Artifacts PV1 TR1) :
    v1beta1.Artifacts.convertTo C a sink
      = { Inputs := a.Inputs.map (fun ia => v1beta1.Artifact.convertTo C ia (v1.Artifact.zero C))
          Outputs :=
            a.Outputs.map (fun oa => v1beta1.Artifact.convertTo C oa (v1.Artifact.zero C)) } := by
  unfold v1beta1.Artifacts.convertTo
  simp only [foldl_append_inputs_v1, foldl_append_outputs_v1, List.nil_append]

/-- The receiver of `Artifacts.convertFrom` holds the element-wise conversions, in order. -/
theorem Artifacts_convertFrom_eq (C : Converters PVb TRb PV1 TR1)
    (a : v1beta1.Artifacts PVb TRb) (source : v1.Artifacts PV1 TR1) :
    v1beta1.Artifacts.convertFrom C a source
      = { Inputs := source.Inputs.map
            (fun ia => v1beta1.Artifact.convertFrom C (v1beta1.Artifact.zero C) ia)
          Outputs := source.Outputs.map
            (fun oa => v1beta1.Artifact.convertFrom C (v1beta1.Artifact.zero C) oa) } := by
  unfold v1beta1.Artifacts.convertFrom
  simp only [foldl_append_inputs_v1beta1, foldl_append_outputs_v1beta1, List.nil_append]

/-- Method `Artifact.convertTo` copies `Name`, `Type` and `Description`, whatever the sink held. -/
theorem Artifact_convertTo_fields (C : Converters PVb TRb PV1 TR1)
    (a : v1beta1.Artifact PVb TRb) (sink : v1.Artifact PV1 TR1) :
    (v1beta1.Artifact.convertTo C a sink).Name = a.Name
      ∧ (v1beta1.Artifact.convertTo C a sink).Type_ = a.Type_
      ∧ (v1beta1.Artifact.convertTo C a sink).Description = a.Description := by
  unfold v1beta1.Artifact.convertTo
  cases a.TaskRef <;> simp

/-- Method `Artifact.convertFrom` copies `Name`, `Type` and `Description`, whatever the receiver
held. -/
theorem Artifact_convertFrom_fields (C : Converters PVb TRb PV1 TR1)
    (a : v1beta1.Artifact PVb TRb) (source : v1.Artifact PV1 TR1) :
    (v1beta1.Artifact.convertFrom C a source).Name = source.Name
      ∧ (v1beta1.Artifact.convertFrom C a source).Type_ = source.Type_
      ∧ (v1beta1.Artifact.convertFrom C a source).Description = source.Description := by
  unfold v1beta1.Artifact.convertFrom
  cases source.TaskRef <;> simp

/-- One artifact, converted into a fresh sink and back into a fresh receiver. -/
theorem Artifact_convertFrom_convertTo (C : Converters PVb TRb PV1 TR1)
    (hV : ∀ v, C.valueConvertFrom C.zeroValue (C.valueConvertTo v C.zeroValueV1) = v)
    (hT : ∀ t, C.taskRefConvertFrom C.zeroTaskRef (C.taskRefConvertTo t C.zeroTaskRefV1) = t)
    (a : v1beta1.Artifact PVb TRb) :
    v1beta1.Artifact.convertFrom C (v1beta1.Artifact.zero C)
        (v1beta1.Artifact.convertTo C a (v1.Artifact.zero C)) = a := by
  rcases a with ⟨name, descr, value, taskRef, type⟩
  cases taskRef with
  | none =>
    simp [v1beta1.Artifact.convertFrom, v1beta1.Artifact.convertTo, v1.Artifact.zero,
      v1beta1.Artifact.zero, hV]
  | some t =>
    simp [v1beta1.Artifact.convertFrom, v1beta1.Artifact.convertTo, v1.Artifact.zero,
      v1beta1.Artifact.zero, hV, hT]

/-- One artifact, converted into a fresh receiver and back into a fresh sink. -/
theorem Artifact_convertTo_convertFrom (C : Converters PVb TRb PV1 TR1)
    (hV : ∀ v, C.valueConvertTo (C.valueConvertFrom C.zeroValue v) C.zeroValueV1 = v)
    (hT : ∀ t, C.taskRefConvertTo (C.taskRefConvertFrom C.zeroTaskRef t) C.zeroTaskRefV1 = t)
    (b : v1.Artifact PV1 TR1) :
    v1beta1.Artifact.convertTo C
        (v1beta1.Artifact.convertFrom C (v1beta1.Artifact.zero C) b) (v1.Artifact.zero C) = b := by
  rcases b with ⟨name, descr, value, taskRef, type⟩
  cases taskRef with
  | none =>
    simp [v1beta1.Artifact.convertFrom, v1beta1.Artifact.convertTo, v1.Artifact.zero,
      v1beta1.Artifact.zero, hV]
  | some t =>
    simp [v1beta1.Artifact.convertFrom, v1beta1.Artifact.convertTo, v1.Artifact.zero,
      v1beta1.Artifact.zero, hV, hT]

/-- C9: when the value converter and the task-reference converter each round-trip,
`convertFrom` applied to the result of `A.convertTo` reproduces the legacy `Artifacts` value
`A` (the same input and output artifacts in the same order, each with the same name, type,
description, value and task reference), whatever the sink and the receiver held before; and
`convertTo` applied to the result of `convertFrom` reproduces a v1 value, empty sequences
included. -/
theorem C9_Artifacts_round_trip (C : Converters PVb TRb PV1 TR1)
    (hV : ∀ v, C.valueConvertFrom C.zeroValue (C.valueConvertTo v C.zeroValueV1) = v)
    (hT : ∀ t, C.taskRefConvertFrom C.zeroTaskRef (C.taskRefConvertTo t C.zeroTaskRefV1) = t)
    (hV1 : ∀ v, C.valueConvertTo (C.valueConvertFrom C.zeroValue v) C.zeroValueV1 = v)
    (hT1 : ∀ t, C.taskRefConvertTo (C.taskRefConvertFrom C.zeroTaskRef t) C.zeroTaskRefV1 = t) :
    (∀ (A : v1beta1.Artifacts PVb TRb) (sink : v1.Artifacts PV1 TR1)
        (recv : v1beta1.Artifacts PVb TRb),
        v1beta1.Artifacts.convertFrom C recv (v1beta1.Artifacts.convertTo C A sink) = A)
    ∧ (∀ (B : v1.Artifacts PV1 TR1) (recv : v1beta1.Artifacts PVb TRb)
        (sink : v1.Artifacts PV1 TR1),
        v1beta1.Artifacts.convertTo C (v1beta1.Artifacts.convertFrom C recv B) sink = B) := by
  constructor
  · intro A sink recv
    rcases A with ⟨ins, outs⟩
    rw [Artifacts_convertTo_eq, Artifacts_convertFrom_eq]
    simp only [List.map_map]
    have hid : ((fun ia => v1beta1.Artifact.convertFrom C (v1beta1.Artifact.zero C) ia) ∘
        fun ia => v1beta1.Artifact.convertTo C ia (v1.Artifact.zero C)) = id := by
      funext a
      exact Artifact_convertFrom_convertTo C hV hT a
    rw [hid, List.map_id, List.map_id]
  · intro B recv sink
    rcases B with ⟨ins, outs⟩
    rw [Artifacts_convertFrom_eq, Artifacts_convertTo_eq]
    simp only [List.map_map]
    have hid : ((fun ia => v1beta1.Artifact.convertTo C ia (v1.Artifact.zero C)) ∘
        fun ia => v1beta1.Artifact.convertFrom C (v1beta1.Artifact.zero C) ia) = id := by
      funext b
      exact Artifact_convertTo_convertFrom C hV1 hT1 b
    rw [hid, List.map_id, List.map_id]

end ConversionProofs

/-- The round trip with the copying converters, on one input with a task reference, one
without, and no output. -/
theorem C9_Artifacts_round_trip_witness :
    (∀ v, copyConverters.valueConvertFrom copyConverters.zeroValue
        (copyConverters.valueConvertTo v copyConverters.zeroValueV1) = v)
    ∧ v1beta1.Artifacts.convertFrom copyConverters ⟨[], []⟩
        (v1beta1.Artifacts.convertTo copyConverters
          ⟨[⟨"sbom".toList, "bill".toList, "uri".toList, some "scan".toList, "string".toList⟩,
            ⟨"image".toList, [], "digest".toList, none, "string".toList⟩], []⟩
          ⟨[], []⟩)
      = ⟨[⟨"sbom".toList, "bill".toList, "uri".toList, some "scan".toList, "string".toList⟩,
          ⟨"image".toList, [], "digest".toList, none, "string".toList⟩], []⟩ :=
  ⟨fun _ => rfl,
    (C9_Artifacts_round_trip copyConverters (fun _ => rfl) (fun _ => rfl) (fun _ => rfl)
      (fun _ => rfl)).1 _ _ _⟩

section ConversionFrame

variable {PVb TRb PV1 TR1 : Type}

/-- C10: whatever the sink held, `Artifacts.convertTo` leaves it with the conversions of the
source inputs as `Inputs` and of the source outputs as `Outputs`: the same lengths, the
`Name`, `Type` and `Description` of the i-th source element at position i, no element
dropped, reordered or moved between the two sequences, nothing of the prior sink left; the
same holds for `convertFrom`.  Both are total: they have no failing path. -/
theorem C10_Artifacts_convert_frame (C : Converters PVb TRb PV1 TR1)
    (a : v1beta1.Artifacts PVb TRb) (sink sink' : v1.Artifacts PV1 TR1)
    (source : v1.Artifacts PV1 TR1) (recv recv' : v1beta1.Artifacts PVb TRb) :
    ((v1beta1.Artifacts.convertTo C a sink).Inputs.length = a.Inputs.length
      ∧ (v1beta1.Artifacts.convertTo C a sink).Outputs.length = a.Outputs.length
      ∧ (v1beta1.Artifacts.convertTo C a sink).Inputs.map
            (fun x => (x.Name, x.Type_, x.Description))
          = a.Inputs.map (fun x => (x.Name, x.Type_, x.Description))
      ∧ (v1beta1.Artifacts.convertTo C a sink).Outputs.map
            (fun x => (x.Name, x.Type_, x.Description))
          = a.Outputs.map (fun x => (x.Name, x.Type_, x.Description))
      ∧ (v1beta1.Artifacts.convertTo C a sink).Inputs
          = a.Inputs.map (fun ia => v1beta1.Artifact.convertTo C ia (v1.Artifact.zero C))
      ∧ (v1beta1.Artifacts.convertTo C a sink).Outputs
          = a.Outputs.map (fun oa => v1beta1.Artifact.convertTo C oa (v1.Artifact.zero C))
      ∧ v1beta1.Artifacts.convertTo C a sink = v1beta1.Artifacts.convertTo C a sink')
    ∧ ((v1beta1.Artifacts.convertFrom C recv source).Inputs.length = source.Inputs.length
      ∧ (v1beta1.Artifacts.convertFrom C recv source).Outputs.length = source.Outputs.length
      ∧ (v1beta1.Artifacts.convertFrom C recv source).Inputs.map
            (fun x => (x.Name, x.Type_, x.Description))
          = source.Inputs.map (fun x => (x.Name, x.Type_, x.Description))
      ∧ (v1beta1.Artifacts.convertFrom C recv source).Outputs.map
            (fun x => (x.Name, x.Type_, x.Description))
          = source.Outputs.map (fun x => (x.Name, x.Type_, x.Description))
      ∧ (v1beta1.Artifacts.convertFrom C recv source).Inputs
          = source.Inputs.map
              (fun ia => v1beta1.Artifact.convertFrom C (v1beta1.Artifact.zero C) ia)
      ∧ (v1beta1.Artifacts.convertFrom C recv source).Outputs
          = source.Outputs.map
              (fun oa => v1beta1.Artifact.convertFrom C (v1beta1.Artifact.zero C) oa)
      ∧ v1beta1.Artifacts.convertFrom C recv source
          = v1beta1.Artifacts.convertFrom C recv' source) := by
  have hto : ∀ x : v1beta1.Artifact PVb TRb,
      ((v1beta1.Artifact.convertTo C x (v1.Artifact.zero C)).Name,
        (v1beta1.Artifact.convertTo C x (v1.Artifact.zero C)).Type_,
        (v1beta1.Artifact.convertTo C x (v1.Artifact.zero C)).Description)
      = (x.Name, x.Type_, x.Description) := by
    intro x
    obtain ⟨h1, h2, h3⟩ := Artifact_convertTo_fields C x (v1.Artifact.zero C)
    rw [h1, h2, h3]
  have hfrom : ∀ x : v1.Artifact PV1 TR1,
      ((v1beta1.Artifact.convertFrom C (v1beta1.Artifact.zero C) x).Name,
        (v1beta1.Artifact.convertFrom C (v1beta1.Artifact.zero C) x).Type_,
        (v1beta1.Artifact.convertFrom C (v1beta1.Artifact.zero C) x).Description)
      = (x.Name, x.Type_, x.Description) := by
    intro x
    obtain ⟨h1, h2, h3⟩ := Artifact_convertFrom_fields C (v1beta1.Artifact.zero C) x
    rw [h1, h2, h3]
  refine ⟨?_, ?_⟩
  · rw [Artifacts_convertTo_eq C a sink, Artifacts_convertTo_eq C a sink']
    simp only [List.length_map, List.map_map, Function.comp_def, hto, and_self]
  · rw [Artifacts_convertFrom_eq C recv source, Artifacts_convertFrom_eq C recv' source]
    simp only [List.length_map, List.map_map, Function.comp_def, hfrom, and_self]

end ConversionFrame


/-! ## The task reference of a converted artifact -/

section TaskRefProofs

variable {PVb TRb PV1 TR1 : Type}

theorem Artifact_convertTo_TaskRef (C : Converters PVb TRb PV1 TR1)
    (a : v1beta1.Artifact PVb TRb) (sink : v1.Artifact PV1 TR1) :
    (v1beta1.Artifact.convertTo C a sink).TaskRef
      = match a.TaskRef with
        | some taskRef => some (C.taskRefConvertTo taskRef C.zeroTaskRefV1)
        | none => sink.TaskRef := by
  unfold v1beta1.Artifact.convertTo
  cases a.TaskRef <;> rfl

theorem Artifact_convertFrom_TaskRef (C : Converters PVb TRb PV1 TR1)
    (a : v1beta1.Artifact PVb TRb) (source : v1.Artifact PV1 TR1) :
    (v1beta1.Artifact.convertFrom C a source).TaskRef
      = match source.TaskRef with
        | some taskRef => some (C.taskRefConvertFrom C.zeroTaskRef taskRef)
        | none => a.TaskRef := by
  unfold v1beta1.Artifact.convertFrom
  cases source.TaskRef <;> rfl

/-- C11 (amended): after `Artifact.convertTo` a source with a `TaskRef` leaves the sink
holding the converted `TaskRef`, whatever the sink held, and a source without a `TaskRef`
leaves the `TaskRef` of the sink as it was; so for a sink that held no `TaskRef` (such as
the fresh sinks `Artifacts.convertTo` passes) the sink has a `TaskRef` if and only if the
source has one.  The same holds for `Artifact.convertFrom` and its receiver. -/
theorem C11_TaskRef_presence (C : Converters PVb TRb PV1 TR1)
    (a : v1beta1.Artifact PVb TRb) (sink : v1.Artifact PV1 TR1)
    (source : v1.Artifact PV1 TR1) (recv : v1beta1.Artifact PVb TRb) :
    ((∀ t, a.TaskRef = some t →
        (v1beta1.Artifact.convertTo C a sink).TaskRef
          = some (C.taskRefConvertTo t C.zeroTaskRefV1))
      ∧ (a.TaskRef = none → (v1beta1.Artifact.convertTo C a sink).TaskRef = sink.TaskRef)
      ∧ (sink.TaskRef = none →
          ((v1beta1.Artifact.convertTo C a sink).TaskRef.isSome = true
            ↔ a.TaskRef.isSome = true)))
    ∧ ((∀ t, source.TaskRef = some t →
        (v1beta1.Artifact.convertFrom C recv source).TaskRef
          = some (C.taskRefConvertFrom C.zeroTaskRef t))
      ∧ (source.TaskRef = none →
          (v1beta1.Artifact.convertFrom C recv source).TaskRef = recv.TaskRef)
      ∧ (recv.TaskRef = none →
          ((v1beta1.Artifact.convertFrom C recv source).TaskRef.isSome = true
            ↔ source.TaskRef.isSome = true))) := by
  have hto := Artifact_convertTo_TaskRef C a sink
  have hfrom := Artifact_convertFrom_TaskRef C recv source
  refine ⟨⟨?_, ?_, ?_⟩, ⟨?_, ?_, ?_⟩⟩
  · intro t ht
    rw [hto, ht]
  · intro hn
    rw [hto, hn]
  · intro hs
    rw [hto]
    cases h : a.TaskRef with
    | none => simp [hs]
    | some t => simp
  · intro t ht
    rw [hfrom, ht]
  · intro hn
    rw [hfrom, hn]
  · intro hr
    rw [hfrom]
    cases h : source.TaskRef with
    | none => simp [hr]
    | some t => simp

end TaskRefProofs

/-- The rule of presence with the copying converters, on an artifact produced by task
`scan` and a fresh sink. -/
theorem C11_TaskRef_presence_witness :
    (v1.Artifact.zero copyConverters).TaskRef = none
      ∧ ((v1beta1.Artifact.convertTo copyConverters
            ⟨"sbom".toList, [], "uri".toList, some "scan".toList, "string".toList⟩
            (v1.Artifact.zero copyConverters)).TaskRef.isSome = true
          ↔ (some "scan".toList : Option Str).isSome = true) :=
  ⟨rfl,
    (C11_TaskRef_presence copyConverters
      ⟨"sbom".toList, [], "uri".toList, some "scan".toList, "string".toList⟩
      (v1.Artifact.zero copyConverters) (v1.Artifact.zero copyConverters)
      (v1beta1.Artifact.zero copyConverters)).1.2.2 rfl⟩

/-- C11 fails as stated: a source without `TaskRef` converted into a sink that holds the
task reference `old` leaves that reference in the sink; likewise for `convertFrom`. -/
theorem C11_counterexample :
    ((⟨"sbom".toList, [], "uri".toList, none, "string".toList⟩ :
        v1beta1.Artifact Str Str).TaskRef = none
      ∧ (v1beta1.Artifact.convertTo copyConverters
          ⟨"sbom".toList, [], "uri".toList, none, "string".toList⟩
          ⟨[], [], [], some "old".toList, []⟩).TaskRef = some "old".toList)
    ∧ (v1beta1.Artifact.convertFrom copyConverters
          ⟨[], [], [], some "old".toList, []⟩
          ⟨"sbom".toList, [], "uri".toList, none, "string".toList⟩).TaskRef
        = some "old".toList :=
  ⟨⟨rfl, rfl⟩, rfl⟩


/-! ## Extraction and aggregation -/

/-- A loop that appends one batch per element gives the batches in the order of the
elements. -/
theorem foldl_append_batches {α β : Type} (f : α → List β) (xs : List α) (acc : List β) :
    xs.foldl (fun acc x => acc ++ f x) acc = acc ++ (xs.map f).flatten := by
  induction xs generalizing acc with
  | nil => simp
  | cons x xs ih => simp [List.foldl_cons, ih, List.append_assoc]

section Aggregation

variable {R P W TR : Type}

/-- The references of a task: the batches of the parameters, then of the when-expressions,
then of the input artifacts. -/
theorem PipelineTaskArtifactRefs_eq (K : ResultFormats) (X : Extractors R P W TR)
    (pt : PipelineTask R W TR) :
    PipelineTaskArtifactRefs K X pt
      = (((X.extractAllParams pt).map
            (fun p => NewArtifactRefs K (X.GetVarSubstitutionExpressionsForParam p).1)).flatten
          ++ (pt.WhenExpressions.map
            (fun w => NewArtifactRefs K (X.whenGetVarSubstitutionExpressions w).1)).flatten)
        ++ (match pt.Artifacts with
            | some artifacts =>
              (artifacts.Inputs.map
                (fun ia => NewArtifactRefs K
                  (GetVarSubstitutionExpressionsForInputArtifact X.validateString ia).1)).flatten
            | none => []) := by
  unfold PipelineTaskArtifactRefs
  cases pt.Artifacts with
  | none => simp only [foldl_append_batches, List.nil_append, List.append_nil]
  | some artifacts => simp only [foldl_append_batches, List.nil_append]

/-- C12: `PipelineTaskArtifactRefs` returns the concatenation, with nothing removed, of
`NewArtifactRefs` over the expressions of each parameter in parameter order, then of each
when-expression in order, then of each declared input artifact in order (none when the task
has no `Artifacts`); a task whose one parameter yields `tasks.a.artifacts.outputs.x`, whose
one when-expression yields `tasks.b.artifacts.outputs.y[0]` and whose one input artifact
yields `tasks.c.artifacts.outputs.z.attr` gives exactly the references `(a, x, 0, "")`,
`(b, y, 0, "")`, `(c, z, 0, "attr")` in that order. -/
theorem C12_PipelineTaskArtifactRefs_concat (K : ResultFormats) (X : Extractors R P W TR) :
    (∀ pt : PipelineTask R W TR,
      PipelineTaskArtifactRefs K X pt
        = (((X.extractAllParams pt).map
              (fun p => NewArtifactRefs K (X.GetVarSubstitutionExpressionsForParam p).1)).flatten
            ++ (pt.WhenExpressions.map
              (fun w => NewArtifactRefs K (X.whenGetVarSubstitutionExpressions w).1)).flatten)
          ++ (match pt.Artifacts with
              | some artifacts =>
                (artifacts.Inputs.map
                  (fun ia => NewArtifactRefs K
                    (GetVarSubstitutionExpressionsForInputArtifact X.validateString ia).1)).flatten
              | none => []))
    ∧ (∀ (pt : PipelineTask R W TR) (p : P) (w : W) (ia : v1beta1.Artifact ParamValue TR)
        (outputs : List (v1beta1.Artifact ParamValue TR)),
        X.extractAllParams pt = [p] →
        (X.GetVarSubstitutionExpressionsForParam p).1 = ["tasks.a.artifacts.outputs.x".toList] →
        pt.WhenExpressions = [w] →
        (X.whenGetVarSubstitutionExpressions w).1 = ["tasks.b.artifacts.outputs.y[0]".toList] →
        pt.Artifacts = some ⟨[ia], outputs⟩ →
        (GetVarSubstitutionExpressionsForInputArtifact X.validateString ia).1
          = ["tasks.c.artifacts.outputs.z.attr".toList] →
        PipelineTaskArtifactRefs K X pt
          = [⟨"a".toList, "x".toList, 0, []⟩, ⟨"b".toList, "y".toList, 0, []⟩,
              ⟨"c".toList, "z".toList, 0, "attr".toList⟩]) := by
  refine ⟨PipelineTaskArtifactRefs_eq K X, ?_⟩
  intro pt p w ia outputs hp hpe hw hwe ha hae
  rw [PipelineTaskArtifactRefs_eq, hp, hw, ha]
  simp only [List.map_cons, List.map_nil, List.flatten_cons, List.flatten_nil, List.append_nil,
    hpe, hwe, hae]
  rfl

end Aggregation

/-- The example task of the aggregation, with the scanner of `$(`...`)` tokens: one
parameter, one when-expression and one string input artifact. -/
theorem C12_PipelineTaskArtifactRefs_concat_witness :
    PipelineTaskArtifactRefs ⟨[], []⟩ stringExtractors
        { rest := ["img-$(tasks.a.artifacts.outputs.x)".toList]
          WhenExpressions := ["$(tasks.b.artifacts.outputs.y[0])".toList]
          Artifacts := some
            ⟨[⟨"in".toList, [],
                ⟨"string".toList, "$(tasks.c.artifacts.outputs.z.attr)".toList, [], []⟩,
                none, []⟩], []⟩ }
      = [⟨"a".toList, "x".toList, 0, []⟩, ⟨"b".toList, "y".toList, 0, []⟩,
          ⟨"c".toList, "z".toList, 0, "attr".toList⟩] :=
  (C12_PipelineTaskArtifactRefs_concat ⟨[], []⟩ stringExtractors).2 _
    "img-$(tasks.a.artifacts.outputs.x)".toList "$(tasks.b.artifacts.outputs.y[0])".toList
    ⟨"in".toList, [],
      ⟨"string".toList, "$(tasks.c.artifacts.outputs.z.attr)".toList, [], []⟩, none, []⟩
    [] rfl (by decide) rfl (by decide) rfl (by decide)

section Extraction

variable {TR : Type}

theorem decide_length_ne_zero_iff (xs : List Str) :
    decide (xs.length ≠ 0) = true ↔ xs ≠ [] := by
  cases xs <;> simp

/-- C13: for an input artifact whose value type is array, or any type other than string or
object, `GetVarSubstitutionExpressionsForInputArtifact` returns no expressions and
`found = false`, whatever the array holds; for a string-typed artifact it returns the tokens
scanned from the scalar value, for an object-typed artifact the tokens scanned from the
values of the object in the order of their enumeration; and `found` is true if and only if
the returned list is not empty. -/
theorem C13_input_artifact_extraction (validateString : Str → List Str)
    (artifact : v1beta1.Artifact ParamValue TR) :
    (artifact.Value.Type_ = ParamTypeArray →
        GetVarSubstitutionExpressionsForInputArtifact validateString artifact = ([], false))
    ∧ (artifact.Value.Type_ ≠ ParamTypeString → artifact.Value.Type_ ≠ ParamTypeObject →
        GetVarSubstitutionExpressionsForInputArtifact validateString artifact = ([], false))
    ∧ (artifact.Value.Type_ = ParamTypeString →
        (GetVarSubstitutionExpressionsForInputArtifact validateString artifact).1
          = validateString artifact.Value.StringVal)
    ∧ (artifact.Value.Type_ = ParamTypeObject →
        (GetVarSubstitutionExpressionsForInputArtifact validateString artifact).1
          = (artifact.Value.ObjectVal.map (fun kv => validateString kv.2)).flatten)
    ∧ ((GetVarSubstitutionExpressionsForInputArtifact validateString artifact).2 = true
        ↔ (GetVarSubstitutionExpressionsForInputArtifact validateString artifact).1 ≠ []) := by
  have hother : artifact.Value.Type_ ≠ ParamTypeString →
      artifact.Value.Type_ ≠ ParamTypeObject →
      GetVarSubstitutionExpressionsForInputArtifact validateString artifact = ([], false) := by
    intro h1 h2
    simp only [GetVarSubstitutionExpressionsForInputArtifact, if_neg h1, if_neg h2]
  refine ⟨?_, hother, ?_, ?_, ?_⟩
  · intro h
    apply hother <;> rw [h] <;> decide
  · intro h
    simp only [GetVarSubstitutionExpressionsForInputArtifact, if_pos h, List.nil_append]
  · intro h
    have hne : artifact.Value.Type_ ≠ ParamTypeString := by rw [h]; decide
    simp only [GetVarSubstitutionExpressionsForInputArtifact, if_neg hne, if_pos h,
      foldl_append_batches, List.nil_append]
  · by_cases h1 : artifact.Value.Type_ = ParamTypeString
    · simp only [GetVarSubstitutionExpressionsForInputArtifact, if_pos h1]
      exact decide_length_ne_zero_iff _
    · by_cases h2 : artifact.Value.Type_ = ParamTypeObject
      · simp only [GetVarSubstitutionExpressionsForInputArtifact, if_neg h1, if_pos h2]
        exact decide_length_ne_zero_iff _
      · rw [hother h1 h2]
        simp

end Extraction

/-- The extraction on an array-typed input artifact whose elements hold a reference: no
expression, `found = false`. -/
theorem C13_input_artifact_extraction_witness :
    GetVarSubstitutionExpressionsForInputArtifact scanSubstitutionTokens
        (⟨"in".toList, [],
          ⟨"array".toList, [], ["$(tasks.a.artifacts.outputs.x)".toList], []⟩,
          none, []⟩ : v1beta1.Artifact ParamValue Str)
      = ([], false) :=
  (C13_input_artifact_extraction scanSubstitutionTokens
    (⟨"in".toList, [],
      ⟨"array".toList, [], ["$(tasks.a.artifacts.outputs.x)".toList], []⟩,
      none, []⟩ : v1beta1.Artifact ParamValue Str)).1 rfl

/-! ## The guard and the invariant of parsed references -/

/-- C14: `LooksLikeContainsArtifactRefs` is true exactly when at least one element of the
list satisfies `looksLikeArtifactRef`; it is false on the empty list. -/
theorem C14_LooksLikeContainsArtifactRefs_iff (expressions : List Str) :
    (LooksLikeContainsArtifactRefs expressions = true
      ↔ ∃ e ∈ expressions, looksLikeArtifactRef e = true)
    ∧ LooksLikeContainsArtifactRefs [] = false := by
  refine ⟨?_, rfl⟩
  induction expressions with
  | nil => simp [LooksLikeContainsArtifactRefs]
  | cons x xs ih =>
    unfold LooksLikeContainsArtifactRefs
    by_cases hx : looksLikeArtifactRef x = true
    · simp [hx]
    · simp only [hx, if_false, Bool.false_eq_true]
      rw [ih]
      simp [hx]


/-- A successful parse has index 0 or an empty property. -/
theorem parse_index_zero_or_property_empty (K : ResultFormats) (s : Str)
    (h : parseErr (parseArtifactExpression K s) = none) :
    (parseArtifactExpression K s).2.2.1 = 0 ∨ (parseArtifactExpression K s).2.2.2.1 = [] := by
  obtain ⟨hl, h5 | h6⟩ := (parseErr_eq_none_iff K s).1 h
  · right
    rw [parseArtifactExpression_five K s hl h5]
  · left
    rw [parseArtifactExpression_six K s hl h6]

theorem mem_NewArtifactRefs (K : ResultFormats) (xs : List Str) (r : ArtifactRef)
    (h : r ∈ NewArtifactRefs K xs) :
    ∃ e ∈ xs, parseErr (parseArtifactExpression K e) = none
      ∧ r = refOfParse (parseArtifactExpression K e) := by
  rw [NewArtifactRefs_eq_filter_map, List.mem_map] at h
  obtain ⟨e, he, hr⟩ := h
  rw [List.mem_filter] at he
  refine ⟨e, he.1, ?_, hr.symm⟩
  have := he.2
  cases hv : parseErr (parseArtifactExpression K e) with
  | none => rfl
  | some v => rw [hv] at this; simp at this

theorem NewArtifactRefs_index_zero_or_property_empty (K : ResultFormats) (xs : List Str)
    (r : ArtifactRef) (h : r ∈ NewArtifactRefs K xs) :
    r.ArtifactsIndex = 0 ∨ r.Property = [] := by
  obtain ⟨e, -, he, rfl⟩ := mem_NewArtifactRefs K xs r h
  exact parse_index_zero_or_property_empty K e he

section Invariant

variable {R P W TR : Type}

/-- Every reference of a task comes out of one call of `NewArtifactRefs`. -/
theorem mem_PipelineTaskArtifactRefs (K : ResultFormats) (X : Extractors R P W TR)
    (pt : PipelineTask R W TR) (r : ArtifactRef)
    (h : r ∈ PipelineTaskArtifactRefs K X pt) : ∃ xs, r ∈ NewArtifactRefs K xs := by
  rw [PipelineTaskArtifactRefs_eq] at h
  rcases List.mem_append.1 h with h | h
  · rcases List.mem_append.1 h with h | h
    · obtain ⟨l, hl, hr⟩ := List.mem_flatten.1 h
      obtain ⟨p, -, rfl⟩ := List.mem_map.1 hl
      exact ⟨_, hr⟩
    · obtain ⟨l, hl, hr⟩ := List.mem_flatten.1 h
      obtain ⟨w, -, rfl⟩ := List.mem_map.1 hl
      exact ⟨_, hr⟩
  · cases ha : pt.Artifacts with
    | none => rw [ha] at h; simp at h
    | some artifacts =>
      rw [ha] at h
      obtain ⟨l, hl, hr⟩ := List.mem_flatten.1 h
      obtain ⟨ia, -, rfl⟩ := List.mem_map.1 hl
      exact ⟨_, hr⟩

/-- C15: on every string on which `parseArtifactExpression` succeeds, a non-zero index and a
non-empty property never occur together: if the index is not 0 the property is `""`, and if
the property is not `""` the index is 0; hence the same holds of every reference that
`NewArtifactRefs` or `PipelineTaskArtifactRefs` returns. -/
theorem C15_index_and_property_exclusive (K : ResultFormats) (X : Extractors R P W TR) :
    (∀ s : Str, (parseArtifactExpression K s).2.2.2.2 = none →
      ((parseArtifactExpression K s).2.2.1 ≠ 0 → (parseArtifactExpression K s).2.2.2.1 = [])
      ∧ ((parseArtifactExpression K s).2.2.2.1 ≠ [] → (parseArtifactExpression K s).2.2.1 = 0))
    ∧ (∀ (xs : List Str) (r : ArtifactRef), r ∈ NewArtifactRefs K xs →
        (r.ArtifactsIndex ≠ 0 → r.Property = []) ∧ (r.Property ≠ [] → r.ArtifactsIndex = 0))
    ∧ (∀ (pt : PipelineTask R W TR) (r : ArtifactRef), r ∈ PipelineTaskArtifactRefs K X pt →
        (r.ArtifactsIndex ≠ 0 → r.Property = []) ∧ (r.Property ≠ [] → r.ArtifactsIndex = 0)) := by
  refine ⟨?_, ?_, ?_⟩
  · intro s h
    rcases parse_index_zero_or_property_empty K s h with h0 | h0
    · exact ⟨fun hne => absurd h0 hne, fun _ => h0⟩
    · exact ⟨fun _ => h0, fun hne => absurd h0 hne⟩
  · intro xs r hr
    rcases NewArtifactRefs_index_zero_or_property_empty K xs r hr with h0 | h0
    · exact ⟨fun hne => absurd h0 hne, fun _ => h0⟩
    · exact ⟨fun _ => h0, fun hne => absurd h0 hne⟩
  · intro pt r hr
    obtain ⟨xs, hxs⟩ := mem_PipelineTaskArtifactRefs K X pt r hr
    rcases NewArtifactRefs_index_zero_or_property_empty K xs r hxs with h0 | h0
    · exact ⟨fun hne => absurd h0 hne, fun _ => h0⟩
    · exact ⟨fun _ => h0, fun hne => absurd h0 hne⟩

end Invariant

/-- The invariant at `tasks.build.artifacts.outputs.items[2]` (index 2, no property) and at
the reference of `tasks.build.artifacts.outputs.meta.owner` (property `owner`, index 0). -/
theorem C15_index_and_property_exclusive_witness :
    ((parseArtifactExpression ⟨[], []⟩
        "tasks.build.artifacts.outputs.items[2]".toList).2.2.1 ≠ 0
      ∧ (parseArtifactExpression ⟨[], []⟩
          "tasks.build.artifacts.outputs.items[2]".toList).2.2.2.1 = [])
    ∧ ((⟨"build".toList, "meta".toList, 0, "owner".toList⟩ : ArtifactRef).Property ≠ []
      ∧ (⟨"build".toList, "meta".toList, 0, "owner".toList⟩ : ArtifactRef).ArtifactsIndex = 0) :=
  ⟨⟨by decide,
      ((C15_index_and_property_exclusive ⟨[], []⟩ stringExtractors).1
        "tasks.build.artifacts.outputs.items[2]".toList (by decide)).1 (by decide)⟩,
    ⟨by decide,
      ((C15_index_and_property_exclusive ⟨[], []⟩ stringExtractors).2.1
        ["tasks.build.artifacts.outputs.meta.owner".toList]
        ⟨"build".toList, "meta".toList, 0, "owner".toList⟩ (by decide)).2 (by decide)⟩⟩

/-! ## The configuration loader -/

/-- C17: for a configuration map without the key `type`, `NewArtifactConfigFromMap` returns
an empty `ArtifactConfig` and no error; when the key is present the result is the decoding
of its value, and a decoding failure is returned as the error, with no configuration. -/
theorem C17_NewArtifactConfigFromMap {E : Type}
    (jsonUnmarshal : Str → config.ArtifactConfig → config.ArtifactConfig × Option E)
    (cfgMap : Str → Option Str) :
    (cfgMap "type".toList = none →
      config.NewArtifactConfigFromMap jsonUnmarshal cfgMap = (some { Type_ := [] }, none))
    ∧ (∀ cfg value, cfgMap "type".toList = some cfg →
        jsonUnmarshal cfg { Type_ := [] } = (value, none) →
        config.NewArtifactConfigFromMap jsonUnmarshal cfgMap = (some value, none))
    ∧ (∀ cfg value err, cfgMap "type".toList = some cfg →
        jsonUnmarshal cfg { Type_ := [] } = (value, some err) →
        config.NewArtifactConfigFromMap jsonUnmarshal cfgMap = (none, some err)) := by
  refine ⟨?_, ?_, ?_⟩
  · intro h
    simp only [config.NewArtifactConfigFromMap, config.setArtifactConfig, h]
  · intro cfg value h hj
    simp only [config.NewArtifactConfigFromMap, config.setArtifactConfig, h, hj]
  · intro cfg value err h hj
    simp only [config.NewArtifactConfigFromMap, config.setArtifactConfig, h, hj]

/-- The loader on a map that has only the key `other`, with a decoder that accepts `[]`
alone. -/
theorem C17_NewArtifactConfigFromMap_witness :
    config.NewArtifactConfigFromMap
        (fun cfg value => if cfg = "[]".toList then (value, none) else (value, some 1))
        (fun key => if key = "other".toList then some "x".toList else none)
      = (some { Type_ := [] }, none) :=
  (C17_NewArtifactConfigFromMap
    (fun cfg value => if cfg = "[]".toList then (value, none) else (value, some 1))
    (fun key => if key = "other".toList then some "x".toList else none)).1 (by decide)

/-! ## Keyword and direction -/

/-- C20: two expressions with the same number of segments, 5 or 6, that both satisfy
`looksLikeArtifactRef` and agree on segment 1 and on every segment from 4 onward are parsed
to identical results, whatever their segment 0 (`tasks` or `finally`) and their segment 3
(`inputs`, `outputs`, any other text or none) are. -/
theorem C20_keyword_and_direction_ignored (K : ResultFormats) :
    (∀ s s' : Str, looksLikeArtifactRef s = true → looksLikeArtifactRef s' = true →
      (stringsSplit '.' s).length = (stringsSplit '.' s').length →
      ((stringsSplit '.' s).length = 5 ∨ (stringsSplit '.' s).length = 6) →
      (stringsSplit '.' s).getD 1 [] = (stringsSplit '.' s').getD 1 [] →
      (∀ i, 4 ≤ i → (stringsSplit '.' s).getD i [] = (stringsSplit '.' s').getD i []) →
      parseArtifactExpression K s = parseArtifactExpression K s')
    ∧ parseArtifactExpression K "tasks.t.artifacts.outputs.a[1]".toList
        = parseArtifactExpression K "finally.t.artifacts.inputs.a[1]".toList
    ∧ parseArtifactExpression K "tasks.t.artifacts..o.p".toList
        = parseArtifactExpression K "finally.t.artifacts.anything.o.p".toList := by
  refine ⟨?_, rfl, rfl⟩
  intro s s' hl hl' hlen hcount h1 h4
  have e4 : segment s 4 = segment s' 4 := h4 4 (le_refl 4)
  have e5 : segment s 5 = segment s' 5 := h4 5 (by omega)
  have e1 : segment s 1 = segment s' 1 := h1
  rcases hcount with h5 | h6
  · have h5' : segmentCount s' = 5 := by unfold segmentCount; rw [← hlen]; exact h5
    rw [parseArtifactExpression_five K s hl h5, parseArtifactExpression_five K s' hl' h5',
      e1, e4]
  · have h6' : segmentCount s' = 6 := by unfold segmentCount; rw [← hlen]; exact h6
    rw [parseArtifactExpression_six K s hl h6, parseArtifactExpression_six K s' hl' h6',
      e1, e4, e5]

/-- The rule at `tasks.build.artifacts.outputs.items[2]` and
`finally.build.artifacts.inputs.items[2]`. -/
theorem C20_keyword_and_direction_ignored_witness :
    parseArtifactExpression ⟨[], []⟩ "tasks.build.artifacts.outputs.items[2]".toList
      = parseArtifactExpression ⟨[], []⟩ "finally.build.artifacts.inputs.items[2]".toList :=
  (C20_keyword_and_direction_ignored ⟨[], []⟩).1
    "tasks.build.artifacts.outputs.items[2]".toList
    "finally.build.artifacts.inputs.items[2]".toList
    (by decide) (by decide) (by decide) (by decide) (by decide)
    (fun i hi => by
      have h : ∀ j, (stringsSplit '.' "tasks.build.artifacts.outputs.items[2]".toList).getD
            (j + 4) []
          = (stringsSplit '.' "finally.build.artifacts.inputs.items[2]".toList).getD
            (j + 4) [] := by
        intro j
        cases j <;> rfl
      have := h (i - 4)
      rwa [Nat.sub_add_cancel hi] at this)


/-! ## The error of the parser -/

set_option maxRecDepth 20000 in
/-- C18 (the code departs from it): whenever `parseArtifactExpression` fails, its error is
`fmt.Errorf("must be one of the form 1). %q; 2). %q", resultExpressionFormat,
objectResultExpressionFormat)`: the message quotes the two constants of the result
references, not `artifactExpressionFormat` and `objectArtifactExpressionFormat`.  With the
result-reference forms for the two constants, the message of the error for
`tasks.build.artifacts.sbom` is as written below and contains neither artifact form. -/
theorem C18_error_names_result_formats :
    (∀ (K : ResultFormats) (s : Str), (parseArtifactExpression K s).2.2.2.2 ≠ none →
      (parseArtifactExpression K s).2.2.2.2
        = some { format := "must be one of the form 1). %q; 2). %q".toList
                 args := [K.resultExpressionFormat, K.objectResultExpressionFormat] })
    ∧ ((parseArtifactExpression
          ⟨"tasks.<taskName>.results.<resultName>".toList,
            "tasks.<taskName>.results.<objectResultName>.<individualAttribute>".toList⟩
          "tasks.build.artifacts.sbom".toList).2.2.2.2.bind FmtError.Error
        = some ("must be one of the form 1). ".toList
            ++ Char.ofNat 34 :: "tasks.<taskName>.results.<resultName>".toList
            ++ Char.ofNat 34 :: "; 2). ".toList
            ++ Char.ofNat 34
              :: "tasks.<taskName>.results.<objectResultName>.<individualAttribute>".toList
            ++ [Char.ofNat 34]))
    ∧ ¬ artifactExpressionFormat <:+:
        ("must be one of the form 1). ".toList
          ++ Char.ofNat 34 :: "tasks.<taskName>.results.<resultName>".toList
          ++ Char.ofNat 34 :: "; 2). ".toList
          ++ Char.ofNat 34
            :: "tasks.<taskName>.results.<objectResultName>.<individualAttribute>".toList
          ++ [Char.ofNat 34])
    ∧ ¬ objectArtifactExpressionFormat <:+:
        ("must be one of the form 1). ".toList
          ++ Char.ofNat 34 :: "tasks.<taskName>.results.<resultName>".toList
          ++ Char.ofNat 34 :: "; 2). ".toList
          ++ Char.ofNat 34
            :: "tasks.<taskName>.results.<objectResultName>.<individualAttribute>".toList
          ++ [Char.ofNat 34]) := by
  refine ⟨?_, by decide, by decide, by decide⟩
  intro K s h
  have := parseArtifactExpression_of_err K s h
  rw [this]
  rfl

/-- The error of the parser at the 4-segment string `tasks.build.artifacts.sbom`. -/
theorem C18_error_names_result_formats_witness :
    (parseArtifactExpression ⟨"r".toList, "o".toList⟩
        "tasks.build.artifacts.sbom".toList).2.2.2.2
      = some { format := "must be one of the form 1). %q; 2). %q".toList
               args := ["r".toList, "o".toList] } :=
  C18_error_names_result_formats.1 ⟨"r".toList, "o".toList⟩
    "tasks.build.artifacts.sbom".toList (by decide)


/-! ## The order of enumeration of an object value -/

section Enumeration

variable {TR : Type}

theorem GetVarSubstitutionExpressionsForPipelineArtifact_eq (validateString : Str → List Str)
    (artifact : v1beta1.Artifact ParamValue TR) :
    (GetVarSubstitutionExpressionsForPipelineArtifact validateString artifact).1
      = validateString artifact.Value.StringVal
          ++ (artifact.Value.ArrayVal.map validateString).flatten
          ++ (artifact.Value.ObjectVal.map (fun kv => validateString kv.2)).flatten := by
  simp only [GetVarSubstitutionExpressionsForPipelineArtifact, foldl_append_batches]

theorem found_eq_of_perm (xs ys : List Str) (h : xs.Perm ys) :
    decide (xs.length ≠ 0) = decide (ys.length ≠ 0) := by
  rw [h.length_eq]

/-- C19 (amended): for an object-valued artifact, the expression lists that
`GetVarSubstitutionExpressionsForInputArtifact` and
`GetVarSubstitutionExpressionsForPipelineArtifact` return for two orders of enumeration of
the entries of the object are permutations of one another, with the same `found`; and so are
the references `NewArtifactRefs` builds from them, the batch that
`PipelineTaskArtifactRefs` appends for the artifact. -/
theorem C19_extraction_up_to_enumeration_order (K : ResultFormats)
    (validateString : Str → List Str) (artifact : v1beta1.Artifact ParamValue TR)
    (entries entries' : List (Str × Str)) (h : entries.Perm entries') :
    ((GetVarSubstitutionExpressionsForInputArtifact validateString
          (withObjectVal artifact entries)).1.Perm
        (GetVarSubstitutionExpressionsForInputArtifact validateString
          (withObjectVal artifact entries')).1
      ∧ (GetVarSubstitutionExpressionsForInputArtifact validateString
          (withObjectVal artifact entries)).2
        = (GetVarSubstitutionExpressionsForInputArtifact validateString
          (withObjectVal artifact entries')).2)
    ∧ ((GetVarSubstitutionExpressionsForPipelineArtifact validateString
          (withObjectVal artifact entries)).1.Perm
        (GetVarSubstitutionExpressionsForPipelineArtifact validateString
          (withObjectVal artifact entries')).1
      ∧ (GetVarSubstitutionExpressionsForPipelineArtifact validateString
          (withObjectVal artifact entries)).2
        = (GetVarSubstitutionExpressionsForPipelineArtifact validateString
          (withObjectVal artifact entries')).2)
    ∧ (NewArtifactRefs K (GetVarSubstitutionExpressionsForInputArtifact validateString
          (withObjectVal artifact entries)).1).Perm
        (NewArtifactRefs K (GetVarSubstitutionExpressionsForInputArtifact validateString
          (withObjectVal artifact entries')).1) := by
  have hflat : ((entries.map (fun kv => validateString kv.2)).flatten).Perm
      ((entries'.map (fun kv => validateString kv.2)).flatten) :=
    (h.map _).flatten
  have hinput : (GetVarSubstitutionExpressionsForInputArtifact validateString
        (withObjectVal artifact entries)).1.Perm
      (GetVarSubstitutionExpressionsForInputArtifact validateString
        (withObjectVal artifact entries')).1
      ∧ (GetVarSubstitutionExpressionsForInputArtifact validateString
          (withObjectVal artifact entries)).2
        = (GetVarSubstitutionExpressionsForInputArtifact validateString
          (withObjectVal artifact entries')).2 := by
    by_cases h1 : artifact.Value.Type_ = ParamTypeString
    · simp only [GetVarSubstitutionExpressionsForInputArtifact, withObjectVal, if_pos h1,
        List.Perm.refl, and_self]
    · by_cases h2 : artifact.Value.Type_ = ParamTypeObject
      · simp only [GetVarSubstitutionExpressionsForInputArtifact, withObjectVal, if_neg h1,
          if_pos h2, foldl_append_batches, List.nil_append]
        exact ⟨hflat, found_eq_of_perm _ _ hflat⟩
      · simp only [GetVarSubstitutionExpressionsForInputArtifact, withObjectVal, if_neg h1,
          if_neg h2, List.Perm.refl, and_self]
  have hpipe : (GetVarSubstitutionExpressionsForPipelineArtifact validateString
        (withObjectVal artifact entries)).1.Perm
      (GetVarSubstitutionExpressionsForPipelineArtifact validateString
        (withObjectVal artifact entries')).1 := by
    rw [GetVarSubstitutionExpressionsForPipelineArtifact_eq,
      GetVarSubstitutionExpressionsForPipelineArtifact_eq]
    exact List.Perm.append_left _ hflat
  refine ⟨hinput, ⟨hpipe, ?_⟩, ?_⟩
  · have := found_eq_of_perm _ _ hpipe
    simpa only [GetVarSubstitutionExpressionsForPipelineArtifact] using this
  · rw [NewArtifactRefs_eq_filter_map, NewArtifactRefs_eq_filter_map]
    exact (hinput.1.filter _).map _

end Enumeration

/-- The two orders of enumeration of an object with the entries `k1` and `k2`: the same
expressions and the same references, in the two orders. -/
theorem C19_extraction_up_to_enumeration_order_witness :
    (GetVarSubstitutionExpressionsForInputArtifact scanSubstitutionTokens
        (withObjectVal
          (⟨"in".toList, [], ⟨"object".toList, [], [], []⟩, none, []⟩ :
            v1beta1.Artifact ParamValue Str)
          [("k1".toList, "$(tasks.a.artifacts.outputs.x)".toList),
            ("k2".toList, "$(tasks.b.artifacts.outputs.y)".toList)])).1.Perm
      (GetVarSubstitutionExpressionsForInputArtifact scanSubstitutionTokens
        (withObjectVal
          (⟨"in".toList, [], ⟨"object".toList, [], [], []⟩, none, []⟩ :
            v1beta1.Artifact ParamValue Str)
          [("k2".toList, "$(tasks.b.artifacts.outputs.y)".toList),
            ("k1".toList, "$(tasks.a.artifacts.outputs.x)".toList)])).1 :=
  (C19_extraction_up_to_enumeration_order ⟨[], []⟩ scanSubstitutionTokens
    (⟨"in".toList, [], ⟨"object".toList, [], [], []⟩, none, []⟩ :
      v1beta1.Artifact ParamValue Str)
    [("k1".toList, "$(tasks.a.artifacts.outputs.x)".toList),
      ("k2".toList, "$(tasks.b.artifacts.outputs.y)".toList)]
    [("k2".toList, "$(tasks.b.artifacts.outputs.y)".toList),
      ("k1".toList, "$(tasks.a.artifacts.outputs.x)".toList)]
    (List.Perm.swap _ _ _)).1.1

/-- C19 fails as stated: for the object with the entries `k1` and `k2`, each holding one
reference, the two orders of enumeration give the two expressions in opposite orders, from
both extraction functions, and `PipelineTaskArtifactRefs` returns the two references in
opposite orders. -/
theorem C19_counterexample :
    GetVarSubstitutionExpressionsForInputArtifact scanSubstitutionTokens
        (⟨"in".toList, [],
          ⟨"object".toList, [], [],
            [("k1".toList, "$(tasks.a.artifacts.outputs.x)".toList),
              ("k2".toList, "$(tasks.b.artifacts.outputs.y)".toList)]⟩,
          none, []⟩ : v1beta1.Artifact ParamValue Str)
      = (["tasks.a.artifacts.outputs.x".toList, "tasks.b.artifacts.outputs.y".toList], true)
    ∧ GetVarSubstitutionExpressionsForInputArtifact scanSubstitutionTokens
        (⟨"in".toList, [],
          ⟨"object".toList, [], [],
            [("k2".toList, "$(tasks.b.artifacts.outputs.y)".toList),
              ("k1".toList, "$(tasks.a.artifacts.outputs.x)".toList)]⟩,
          none, []⟩ : v1beta1.Artifact ParamValue Str)
      = (["tasks.b.artifacts.outputs.y".toList, "tasks.a.artifacts.outputs.x".toList], true)
    ∧ (GetVarSubstitutionExpressionsForPipelineArtifact scanSubstitutionTokens
        (⟨"in".toList, [],
          ⟨"object".toList, [], [],
            [("k1".toList, "$(tasks.a.artifacts.outputs.x)".toList),
              ("k2".toList, "$(tasks.b.artifacts.outputs.y)".toList)]⟩,
          none, []⟩ : v1beta1.Artifact ParamValue Str)).1
      ≠ (GetVarSubstitutionExpressionsForPipelineArtifact scanSubstitutionTokens
        (⟨"in".toList, [],
          ⟨"object".toList, [], [],
            [("k2".toList, "$(tasks.b.artifacts.outputs.y)".toList),
              ("k1".toList, "$(tasks.a.artifacts.outputs.x)".toList)]⟩,
          none, []⟩ : v1beta1.Artifact ParamValue Str)).1
    ∧ PipelineTaskArtifactRefs ⟨[], []⟩ stringExtractors
        { rest := [], WhenExpressions := []
          Artifacts := some
            ⟨[⟨"in".toList, [],
                ⟨"object".toList, [], [],
                  [("k1".toList, "$(tasks.a.artifacts.outputs.x)".toList),
                    ("k2".toList, "$(tasks.b.artifacts.outputs.y)".toList)]⟩,
                none, []⟩], []⟩ }
      = [⟨"a".toList, "x".toList, 0, []⟩, ⟨"b".toList, "y".toList, 0, []⟩]
    ∧ PipelineTaskArtifactRefs ⟨[], []⟩ stringExtractors
        { rest := [], WhenExpressions := []
          Artifacts := some
            ⟨[⟨"in".toList, [],
                ⟨"object".toList, [], [],
                  [("k2".toList, "$(tasks.b.artifacts.outputs.y)".toList),
                    ("k1".toList, "$(tasks.a.artifacts.outputs.x)".toList)]⟩,
                none, []⟩], []⟩ }
      = [⟨"b".toList, "y".toList, 0, []⟩, ⟨"a".toList, "x".toList, 0, []⟩] := by
  refine ⟨by decide, by decide, by decide, by decide, by decide⟩


/-! ## A suffix without separator -/

/-- Appending text without separator extends the last segment and leaves the others. -/
theorem stringsSplit_append_of_not_mem (sep : Char) (a b : Str) (hb : sep ∉ b) :
    ∃ init last, stringsSplit sep a = init ++ [last]
      ∧ stringsSplit sep (a ++ b) = init ++ [last ++ b] := by
  induction a with
  | nil =>
    refine ⟨[], [], by simp [stringsSplit], ?_⟩
    rw [List.nil_append, stringsSplit_of_not_mem sep b hb]
    rfl
  | cons c cs ih =>
    obtain ⟨init, last, h1, h2⟩ := ih
    by_cases hc : c = sep
    · subst hc
      refine ⟨[] :: init, last, ?_, ?_⟩
      · rw [stringsSplit_cons_sep, h1]; rfl
      · rw [List.cons_append, stringsSplit_cons_sep, h2]; rfl
    · cases init with
      | nil =>
        refine ⟨[], c :: last, ?_, ?_⟩
        · rw [stringsSplit_cons_ne sep c _ hc, h1]; rfl
        · rw [List.cons_append, stringsSplit_cons_ne sep c _ hc, h2]; rfl
      | cons i0 is =>
        refine ⟨(c :: i0) :: is, last, ?_, ?_⟩
        · rw [stringsSplit_cons_ne sep c _ hc, h1]; rfl
        · rw [List.cons_append, stringsSplit_cons_ne sep c _ hc, h2]; rfl

/-- The segments of a 5-segment expression that is followed by text without dot. -/
theorem segments_append_of_not_mem (e b : Str) (hb : '.' ∉ b)
    (h5 : segmentCount (e ++ b) = 5) :
    segmentCount e = 5 ∧ segment (e ++ b) 0 = segment e 0
      ∧ segment (e ++ b) 1 = segment e 1 ∧ segment (e ++ b) 2 = segment e 2
      ∧ segment (e ++ b) 4 = segment e 4 ++ b := by
  obtain ⟨init, last, h1, h2⟩ := stringsSplit_append_of_not_mem '.' e b hb
  unfold segmentCount at h5 ⊢
  unfold segment
  rw [h2] at h5 ⊢
  rw [h1]
  have hlen : init.length = 4 := by
    simp only [List.length_append, List.length_singleton] at h5
    omega
  refine ⟨by simp [hlen], ?_, ?_, ?_, ?_⟩
  · rw [List.getD_append _ _ _ _ (by omega), List.getD_append _ _ _ _ (by omega)]
  · rw [List.getD_append _ _ _ _ (by omega), List.getD_append _ _ _ _ (by omega)]
  · rw [List.getD_append _ _ _ _ (by omega), List.getD_append _ _ _ _ (by omega)]
  · rw [List.getD_append_right _ _ _ _ (by omega), List.getD_append_right _ _ _ _ (by omega),
      hlen]
    rfl

/-! ## A bracket token that is not a decimal integer -/

/-- The place of the last `x` of a string determines what stands around it. -/
theorem append_cons_inj_of_not_mem (x : Char) (a b u v : Str) (hu : x ∉ u) (hv : x ∉ v)
    (h : a ++ x :: u = b ++ x :: v) : a = b ∧ u = v := by
  induction a generalizing b with
  | nil =>
    cases b with
    | nil =>
      simp only [List.nil_append, List.cons.injEq, true_and] at h
      exact ⟨rfl, h⟩
    | cons y ys =>
      exfalso
      simp only [List.nil_append, List.cons_append, List.cons.injEq] at h
      apply hu
      rw [h.2]
      simp
  | cons c cs ih =>
    cases b with
    | nil =>
      exfalso
      simp only [List.nil_append, List.cons_append, List.cons.injEq] at h
      apply hv
      rw [← h.2]
      simp
    | cons y ys =>
      simp only [List.cons_append, List.cons.injEq] at h
      obtain ⟨h1, h2⟩ := ih ys h.2
      exact ⟨by rw [h.1, h1], h2⟩

/-- A bracket that holds no bracket token is no bracket suffix. -/
theorem not_hasIndexSuffix_of_not_token (n t : Str) (ht : isIndexToken t = false)
    (hopen : '[' ∉ t) : ¬ HasIndexSuffix (n ++ '[' :: (t ++ [']'])) := by
  rintro ⟨bare, t', ht', hs⟩
  have hopen' : '[' ∉ t' := not_mem_of_isIndexToken t' ht' '[' (by decide) (by decide)
  have hu : '[' ∉ t ++ [']'] := by
    intro h
    rcases List.mem_append.1 h with h | h
    · exact hopen h
    · simp only [List.mem_singleton] at h
      exact absurd h (by decide)
  have hv : '[' ∉ t' ++ [']'] := by
    intro h
    rcases List.mem_append.1 h with h | h
    · exact hopen' h
    · simp only [List.mem_singleton] at h
      exact absurd h (by decide)
  obtain ⟨-, h2⟩ := append_cons_inj_of_not_mem '[' n bare _ _ hu hv hs
  have htt : t = t' := List.append_cancel_right h2
  rw [htt, ht'] at ht
  exact Bool.noConfusion ht

/-- An empty bracket, or digits followed by a star: no bracket token, and no `[` in it. -/
theorem not_token_of_shape (t : Str)
    (hshape : t = [] ∨ ∃ ds : Str, ds ≠ [] ∧ (∀ c ∈ ds, Char.isDigit c = true)
      ∧ t = ds ++ ['*']) :
    isIndexToken t = false ∧ '[' ∉ t := by
  rcases hshape with h | ⟨ds, hne, hds, h⟩
  · rw [h]
    exact ⟨rfl, by simp⟩
  · rw [h]
    constructor
    · have hall : (ds ++ ['*']).all Char.isDigit = false := by
        have hs : Char.isDigit '*' = false := by decide
        simp only [List.all_append, List.all_cons, List.all_nil, Bool.and_true, hs,
          Bool.and_false]
      have hstar : (ds ++ ['*'] == ['*']) = false := by
        cases ds with
        | nil => exact absurd rfl hne
        | cons c cs =>
          cases cs <;> simp
      simp only [isIndexToken, isDecimal, hall, Bool.and_false, hstar, Bool.or_self]
    · intro hmem
      rcases List.mem_append.1 hmem with hmem | hmem
      · have := hds _ hmem
        exact absurd this (by decide)
      · simp only [List.mem_singleton] at hmem
        exact absurd hmem (by decide)

theorem not_mem_dot_star : '.' ∉ '[' :: (['*'] ++ [']']) := by
  decide

/-- C16 (amended): on a 5-segment expression that `looksLikeArtifactRef` accepts and whose
segment 4 ends in the bracket token `[*]`, the parser succeeds with index 0 and the text
before the bracket as artifact name; when that text does not itself end in a bracket
suffix, the whole result is the result for the same expression with the bracket suffix
removed (`tasks.t.artifacts.outputs.a[*]` and `tasks.t.artifacts.outputs.a` both give
`("t", "a", 0, "")`).  When segment 4 ends in an empty bracket or in a bracket that holds
digits followed by `*`, the parser succeeds with index 0 as well, but the bracket is no
bracket suffix and stays in the artifact name. -/
theorem C16_non_decimal_token_index_zero (K : ResultFormats) :
    (∀ e : Str, looksLikeArtifactRef (e ++ "[*]".toList) = true →
      (stringsSplit '.' (e ++ "[*]".toList)).length = 5 →
      parseArtifactExpression K (e ++ "[*]".toList)
          = (segment e 1, segment e 4, 0, [], none)
        ∧ (¬ HasIndexSuffix (segment e 4) →
            parseArtifactExpression K e = (segment e 1, segment e 4, 0, [], none)))
    ∧ (∀ s n t : Str, looksLikeArtifactRef s = true → (stringsSplit '.' s).length = 5 →
        segment s 4 = n ++ '[' :: (t ++ [']']) →
        (t = [] ∨ ∃ ds : Str, ds ≠ [] ∧ (∀ c ∈ ds, Char.isDigit c = true)
          ∧ t = ds ++ ['*']) →
        parseArtifactExpression K s = (segment s 1, segment s 4, 0, [], none))
    ∧ parseArtifactExpression K "tasks.t.artifacts.outputs.a[*]".toList
        = ("t".toList, "a".toList, 0, [], none)
    ∧ parseArtifactExpression K "tasks.t.artifacts.outputs.a".toList
        = ("t".toList, "a".toList, 0, [], none) := by
  refine ⟨?_, ?_, rfl, rfl⟩
  · intro e hl h5
    have hstar : "[*]".toList = '[' :: (['*'] ++ [']']) := rfl
    rw [hstar] at hl h5 ⊢
    have h5 : segmentCount (e ++ '[' :: (['*'] ++ [']'])) = 5 := h5
    obtain ⟨h5e, e0, e1, e2, e4⟩ := segments_append_of_not_mem e _ not_mem_dot_star h5
    have hle : looksLikeArtifactRef e = true := by
      rw [looksLikeArtifactRef_eq_true_iff] at hl ⊢
      rw [h5, e0, e2] at hl
      rw [h5e]
      exact hl
    constructor
    · rw [parseArtifactExpression_five K _ hl h5, e1, e4,
        ParseArtifactName_suffix (segment e 4) ['*'] isIndexToken_star]
      rfl
    · intro hno
      rw [parseArtifactExpression_five K e hle h5e, ParseArtifactName_of_no_suffix _ hno]
      simp
  · intro s n t hl h5 hseg hshape
    obtain ⟨ht, hopen⟩ := not_token_of_shape t hshape
    have hno : ¬ HasIndexSuffix (segment s 4) := by
      rw [hseg]
      exact not_hasIndexSuffix_of_not_token n t ht hopen
    rw [parseArtifactExpression_five K s hl h5, ParseArtifactName_of_no_suffix _ hno]
    simp

/-- The rule at `finally.t.artifacts.inputs.items` followed by `[*]`, and at
`finally.t.artifacts.inputs.items[7*]`. -/
theorem C16_non_decimal_token_index_zero_witness :
    (parseArtifactExpression ⟨[], []⟩ ("finally.t.artifacts.inputs.items".toList ++ "[*]".toList)
        = ("t".toList, "items".toList, 0, [], none)
      ∧ parseArtifactExpression ⟨[], []⟩ "finally.t.artifacts.inputs.items".toList
        = ("t".toList, "items".toList, 0, [], none))
    ∧ parseArtifactExpression ⟨[], []⟩ "finally.t.artifacts.inputs.items[7*]".toList
        = ("t".toList, "items[7*]".toList, 0, [], none) :=
  ⟨⟨((C16_non_decimal_token_index_zero ⟨[], []⟩).1 "finally.t.artifacts.inputs.items".toList
        (by decide) (by decide)).1,
      ((C16_non_decimal_token_index_zero ⟨[], []⟩).1 "finally.t.artifacts.inputs.items".toList
        (by decide) (by decide)).2 (not_hasIndexSuffix_of_not_mem _ (by decide))⟩,
    (C16_non_decimal_token_index_zero ⟨[], []⟩).2.1
      "finally.t.artifacts.inputs.items[7*]".toList "items".toList "7*".toList
      (by decide) (by decide) (by decide) (Or.inr ⟨"7".toList, by decide, by decide, rfl⟩)⟩

/-- C16 fails as stated: an empty bracket and a bracket holding digits followed by `*` are
not stripped, so the results for `a[]` and `a[12*]` keep the bracket in the artifact name
and differ from the result for `a`; and after removing `[*]` from `a[1][*]` the bracket
`[1]` becomes the suffix, so the results for `a[1][*]` and `a[1]` differ in name and
index. -/
theorem C16_counterexample :
    (parseArtifactExpression ⟨[], []⟩ "tasks.t.artifacts.outputs.a[]".toList
        = ("t".toList, "a[]".toList, 0, [], none)
      ∧ parseArtifactExpression ⟨[], []⟩ "tasks.t.artifacts.outputs.a[12*]".toList
        = ("t".toList, "a[12*]".toList, 0, [], none)
      ∧ parseArtifactExpression ⟨[], []⟩ "tasks.t.artifacts.outputs.a".toList
        = ("t".toList, "a".toList, 0, [], none))
    ∧ (parseArtifactExpression ⟨[], []⟩ "tasks.t.artifacts.outputs.a[1][*]".toList
        = ("t".toList, "a[1]".toList, 0, [], none)
      ∧ parseArtifactExpression ⟨[], []⟩ "tasks.t.artifacts.outputs.a[1]".toList
        = ("t".toList, "a".toList, 1, [], none)) := by
  refine ⟨⟨by decide, by decide, by decide⟩, by decide, by decide⟩

end Chains
